import Mathlib

/-!
Verification of the `locking_tx_datastore` transactional datastore
(`crates/core/src/db/datastore/locking_tx_datastore/mod.rs`).

The embedding is shallow: each Rust structure becomes a Lean structure and
each method becomes an executable Lean function.  Machine integers are
modelled as `Nat`/`Int` (the ids are `u32` wrappers that the code never
overflows; sequence arithmetic is `i128` and is wrapped explicitly where the
code casts).  `HashMap`/`BTreeMap` values are modelled as association lists
with distinct keys; no claim under scrutiny depends on the internal
iteration order of a single map, only on the staging between maps, which is
preserved.  `DataKey` is content-derived from a row's canonical encoding;
the encoding is injective, so `DataKey`/`RowId` is modelled as the row value
itself (hash collisions are out of scope).  The blob side-table
(`ever_growing_waste_of_memory`) only backs `resolve_data_key`, which no
claim mentions, and is omitted from the state.

The submodules `btree_index.rs`, `sequence.rs`, `table.rs` and
`system_tables.rs` are referenced by `mod.rs` but their sources are not in
the repository snapshot; their definitions below are modelled from the
specification (sections 4.2, 4.3, 4.4 and the bootstrap test assertions)
and are marked `Modelled from the spec:` individually.
-/

namespace STDB

/-- Algebraic scalar types, from `spacetimedb_sats::AlgebraicType` as used by
the datastore: builtin integer types, booleans, strings and a byte-array
type (the encoding of a column type stored in `st_columns`).  Floats and
nested types are never produced by the datastore paths under verification
and are represented by `other`. -/
inductive AlgebraicType where
  | tI8 | tU8 | tI16 | tU16 | tI32 | tU32 | tI64 | tU64 | tI128 | tU128
  | tBool | tString | tBytes
  | other
deriving DecidableEq, Repr

/-- Algebraic scalar values, from `spacetimedb_sats::AlgebraicValue`
(builtin variants used by the datastore).  Unsigned payloads are `Nat`,
signed payloads `Int`; the Rust sides are fixed-width and every cast in the
code is modelled with an explicit wrap. -/
inductive AlgebraicValue where
  | vI8 (v : Int) | vU8 (v : Nat)
  | vI16 (v : Int) | vU16 (v : Nat)
  | vI32 (v : Int) | vU32 (v : Nat)
  | vI64 (v : Int) | vU64 (v : Nat)
  | vI128 (v : Int) | vU128 (v : Nat)
  | vBool (b : Bool)
  | vString (s : String)
  | vBytes (l : List Nat)
deriving DecidableEq, Repr

/-- Row of a table: an ordered product of scalar values
(`spacetimedb_sats::ProductValue`). -/
structure ProductValue where
  elements : List AlgebraicValue
deriving DecidableEq, Repr

/-- Row type (`spacetimedb_sats::ProductType`), projected to the list of
column types (element names are never consulted by the datastore). -/
structure ProductType where
  elements : List AlgebraicType
deriving DecidableEq, Repr

/-- Content-derived row identity (`RowId` wrapping `DataKey`).  The
canonical encoding of a row is injective, so the key is modelled as the row
value itself: identical rows share a `RowId`, distinct rows do not. -/
structure RowId where
  key : ProductValue
deriving DecidableEq, Repr

/-- The `to_data_key` derivation: a row's identity is its canonical content
key. -/
def ProductValue.to_data_key (v : ProductValue) : RowId := ⟨v⟩

/-- Field access `row.elements[i]` / `row.get_field(i)`.  The code indexes
panics-on-out-of-range; all verified paths access in-range columns, so the
out-of-range result is an arbitrary default. -/
def ProductValue.field (v : ProductValue) (i : Nat) : AlgebraicValue :=
  v.elements.getD i (AlgebraicValue.vBool false)

/-- Functional update of one element of a row (`row.elements[c] = x`). -/
def ProductValue.setField (v : ProductValue) (i : Nat) (x : AlgebraicValue) : ProductValue :=
  ⟨v.elements.set i x⟩

section AssocList

variable {κ : Type} {α : Type} [DecidableEq κ]

/-- Lookup in an association list (model of `HashMap::get` /
`BTreeMap::get`). -/
def alookup (k : κ) : List (κ × α) → Option α
  | [] => none
  | (k', v) :: rest => if k' = k then some v else alookup k rest

/-- Keyed insertion: replace the value when the key is present, append
otherwise (model of `HashMap::insert` / `BTreeMap::insert`). -/
def ainsert (k : κ) (v : α) : List (κ × α) → List (κ × α)
  | [] => [(k, v)]
  | (k', v') :: rest => if k' = k then (k, v) :: rest else (k', v') :: ainsert k v rest

/-- Keyed removal (model of `HashMap::remove` / `BTreeMap::remove`). -/
def aerase (k : κ) : List (κ × α) → List (κ × α)
  | [] => []
  | (k', v') :: rest => if k' = k then rest else (k', v') :: aerase k rest

/-- Update the value at a key when present (model of taking `&mut` into an
entry and mutating it in place). -/
def aupdate (k : κ) (f : α → α) : List (κ × α) → List (κ × α)
  | [] => []
  | (k', v') :: rest => if k' = k then (k', f v') :: rest else (k', v') :: aupdate k f rest

@[simp] theorem alookup_nil (k : κ) : alookup (α := α) k [] = none := rfl

@[simp] theorem alookup_cons (k k' : κ) (v : α) (l : List (κ × α)) :
    alookup k ((k', v) :: l) = if k' = k then some v else alookup k l := rfl

@[simp] theorem ainsert_nil (k : κ) (v : α) : ainsert (α := α) k v [] = [(k, v)] := rfl

@[simp] theorem aerase_nil (k : κ) : aerase (α := α) k [] = [] := rfl

theorem alookup_aupdate (k k' : κ) (f : α → α) (l : List (κ × α)) :
    alookup k (aupdate k' f l) =
      if k' = k then (alookup k l).map f else alookup k l := by
  induction l with
  | nil => simp [aupdate, apply_ite (alookup k), apply_ite (Option.map f)]
  | cons hd tl ih =>
      obtain ⟨hk, hv⟩ := hd
      by_cases h1 : hk = k' <;> by_cases h2 : hk = k <;> by_cases h3 : k' = k <;>
        simp [aupdate, alookup, h1, h2, h3, ih] <;> simp_all

theorem alookup_aupdate_ne (k k' : κ) (f : α → α) (l : List (κ × α)) (h : k' ≠ k) :
    alookup k (aupdate k' f l) = alookup k l := by
  simp [alookup_aupdate, h]

theorem alookup_isSome_ainsert (k k' : κ) (v : α) (l : List (κ × α)) :
    (alookup k (ainsert k' v l)).isSome = (k' = k ∨ (alookup k l).isSome) := by
  induction l with
  | nil => by_cases h : k' = k <;> simp [ainsert, alookup, h]
  | cons hd tl ih =>
      obtain ⟨hk, hv⟩ := hd
      by_cases h1 : hk = k' <;> by_cases h2 : hk = k <;>
        simp [ainsert, alookup, h1, h2, ih] <;> simp_all

end AssocList

/-- Column schema (`traits::ColumnSchema`). -/
structure ColumnSchema where
  table_id : Nat
  col_id : Nat
  col_name : String
  col_type : AlgebraicType
  is_autoinc : Bool
deriving DecidableEq, Repr

/-- Index schema (`traits::IndexSchema`). -/
structure IndexSchema where
  index_id : Nat
  table_id : Nat
  col_id : Nat
  index_name : String
  is_unique : Bool
deriving DecidableEq, Repr

/-- Table schema (`traits::TableSchema`). -/
structure TableSchema where
  table_id : Nat
  table_name : String
  columns : List ColumnSchema
  indexes : List IndexSchema
deriving DecidableEq, Repr

/-- Sequence schema (`traits::SequenceSchema`): the fields of an
`st_sequences` row. -/
structure SequenceSchema where
  sequence_id : Nat
  sequence_name : String
  table_id : Nat
  col_id : Nat
  increment : Int
  start : Int
  min_value : Int
  max_value : Int
  allocated : Int
deriving DecidableEq, Repr

/-- In-memory row of `st_sequences` (`system_tables::StSequenceRow`).  The
field layout matches the bootstrap test's `st_columns` assertions for table
id 2. -/
structure StSequenceRow where
  sequence_id : Nat
  sequence_name : String
  table_id : Nat
  col_id : Nat
  increment : Int
  start : Int
  min_value : Int
  max_value : Int
  allocated : Int
deriving DecidableEq, Repr

/-- Conversion `ProductValue::from(&StSequenceRow)`, column order
`sequence_id, sequence_name, table_id, col_id, increment, start, min_value,
max_value, allocated` as asserted by `test_bootstrapping_sets_up_tables`. -/
def StSequenceRow.toProductValue (r : StSequenceRow) : ProductValue :=
  ⟨[.vU32 r.sequence_id, .vString r.sequence_name, .vU32 r.table_id, .vU32 r.col_id,
    .vI128 r.increment, .vI128 r.start, .vI128 r.min_value, .vI128 r.max_value,
    .vI128 r.allocated]⟩

/-- Conversion `StSequenceRow::try_from(&ProductValue)`; any shape mismatch
is a decoding error (`None`). -/
def StSequenceRow.tryFrom (v : ProductValue) : Option StSequenceRow :=
  match v.elements with
  | [.vU32 sid, .vString name, .vU32 tid, .vU32 cid,
     .vI128 inc, .vI128 st, .vI128 mn, .vI128 mx, .vI128 alloc] =>
      some ⟨sid, name, tid, cid, inc, st, mn, mx, alloc⟩
  | _ => none

/-- In-memory row of `st_indexes` (`system_tables::StIndexRow`), column
order `index_id, table_id, col_id, index_name, is_unique`. -/
structure StIndexRow where
  index_id : Nat
  table_id : Nat
  col_id : Nat
  index_name : String
  is_unique : Bool
deriving DecidableEq, Repr

/-- Conversion `ProductValue::from(&StIndexRow)`. -/
def StIndexRow.toProductValue (r : StIndexRow) : ProductValue :=
  ⟨[.vU32 r.index_id, .vU32 r.table_id, .vU32 r.col_id, .vString r.index_name,
    .vBool r.is_unique]⟩

/-- Conversion `StIndexRow::try_from(&ProductValue)`. -/
def StIndexRow.tryFrom (v : ProductValue) : Option StIndexRow :=
  match v.elements with
  | [.vU32 iid, .vU32 tid, .vU32 cid, .vString name, .vBool uniq] =>
      some ⟨iid, tid, cid, name, uniq⟩
  | _ => none

/-- Error taxonomy: the union of `DBError` variants the verified operations
produce (`TableError`, `IndexError`, `SequenceError`, decode failures), plus
`panicked` for a Rust `unwrap`/`panic!` on the modelled paths. -/
inductive Err where
  | tableIdNotFound (id : Nat)
  | rowInvalidType (table_id : Nat) (row : ProductValue)
  | uniqueViolation (constraint_name table_name col_name : String) (value : AlgebraicValue)
  | seqNotFound (id : Nat)
  | seqUnableToAllocate (id : Nat)
  | seqNotInteger (col : String) (found : AlgebraicType)
  | decodeError
  | panicked
deriving DecidableEq, Repr

/-- Whether an outcome is the `UniqueConstraintViolation` error. -/
def Err.isUniqueViolation : Err → Bool
  | .uniqueViolation _ _ _ _ => true
  | _ => false

/-- Modelled from the spec: `btree_index.rs` is not in the snapshot.  A
B-tree index (section 4.2) maps an indexed column value to the set of
`RowId`s holding it; modelled as the list of `(value, row_id)` entries. -/
structure BTreeIndex where
  index_id : Nat
  table_id : Nat
  col_id : Nat
  name : String
  is_unique : Bool
  entries : List (AlgebraicValue × RowId)
deriving DecidableEq, Repr

/-- Modelled from the spec: `BTreeIndex::new` creates an empty index. -/
def BTreeIndex.new (index_id table_id col_id : Nat) (name : String) (is_unique : Bool) :
    BTreeIndex :=
  ⟨index_id, table_id, col_id, name, is_unique, []⟩

/-- Modelled from the spec: the indexed value of a row is the row's element
at the index's column. -/
def BTreeIndex.keyOf (idx : BTreeIndex) (row : ProductValue) : AlgebraicValue :=
  row.field idx.col_id

/-- Modelled from the spec: `seek(value)` yields all `RowId`s stored under
that exact value. -/
def BTreeIndex.seekIds (idx : BTreeIndex) (value : AlgebraicValue) : List RowId :=
  (idx.entries.filter (fun e => e.1 = value)).map (·.2)

/-- Modelled from the spec: adding a row to the index stores the entry
`(row[col], row_id)`; the entry set is keyed, so re-adding an existing
entry is a no-op. -/
def BTreeIndex.add (idx : BTreeIndex) (row_id : RowId) (row : ProductValue) : BTreeIndex :=
  if (idx.keyOf row, row_id) ∈ idx.entries then idx
  else { idx with entries := idx.entries ++ [(idx.keyOf row, row_id)] }

/-- Modelled from the spec: `delete(row)` removes the entry
`(value, row_id)`. -/
def BTreeIndex.remove (idx : BTreeIndex) (row_id : RowId) (row : ProductValue) : BTreeIndex :=
  { idx with entries := idx.entries.filter (fun e => ¬(e.1 = idx.keyOf row ∧ e.2 = row_id)) }

/-- Modelled from the spec: `violates_unique_constraint(row)` preflights an
insert: a unique index is violated when it already holds an entry under the
row's indexed value. -/
def BTreeIndex.violates_unique_constraint (idx : BTreeIndex) (row : ProductValue) : Bool :=
  idx.is_unique && idx.entries.any (fun e => e.1 = idx.keyOf row)

/-- Modelled from the spec: `get_rows_that_violate_unique_constraint(row)`
returns the `RowId`s stored under the row's indexed value for a unique
index, `None` for a non-unique one. -/
def BTreeIndex.get_rows_that_violate_unique_constraint (idx : BTreeIndex) (row : ProductValue) :
    Option (List RowId) :=
  if idx.is_unique then some (idx.seekIds (idx.keyOf row)) else none

/-- Modelled from the spec: `build_from_rows` bulk-adds the given rows. -/
def BTreeIndex.build_from_rows (idx : BTreeIndex) (rows : List (RowId × ProductValue)) :
    BTreeIndex :=
  rows.foldl (fun acc (p : RowId × ProductValue) => acc.add p.1 p.2) idx

/-- Modelled from the spec: `table.rs` is not in the snapshot.  A table
(section 4.3) owns a row type, a schema, an insertion map `RowId → Row`
and its indexes keyed by `ColId`. -/
structure Table where
  row_type : ProductType
  schema : TableSchema
  rows : List (RowId × ProductValue)
  indexes : List (Nat × BTreeIndex)
deriving DecidableEq, Repr

/-- Modelled from the spec: `Table::get_row`. -/
def Table.get_row (t : Table) (row_id : RowId) : Option ProductValue :=
  alookup row_id t.rows

/-- Modelled from the spec: `Table::scan_rows` yields the stored rows. -/
def Table.scan_rows (t : Table) : List ProductValue :=
  t.rows.map (·.2)

/-- Modelled from the spec: `Table::insert` adds the row to the row map and
to every index (uniqueness was pre-checked by the caller). -/
def Table.insertRow (t : Table) (row_id : RowId) (row : ProductValue) : Table :=
  { t with
    rows := ainsert row_id row t.rows
    indexes := t.indexes.map (fun p => (p.1, p.2.add row_id row)) }

/-- Modelled from the spec: `Table::delete` removes the row from the row
map and from every index; absent rows are a no-op. -/
def Table.deleteRow (t : Table) (row_id : RowId) : Table :=
  match alookup row_id t.rows with
  | none => t
  | some row =>
      { t with
        rows := aerase row_id t.rows
        indexes := t.indexes.map (fun p => (p.1, p.2.remove row_id row)) }

/-- Modelled from the spec: `Table::insert_index` registers an index under
its column id (`CommittedState::merge` step 3 attaches it as-is). -/
def Table.insert_index (t : Table) (idx : BTreeIndex) : Table :=
  { t with indexes := ainsert idx.col_id idx t.indexes }

/-- Modelled from the spec: `Table::index_seek` consults the index on the
given column, when one exists. -/
def Table.index_seek (t : Table) (col_id : Nat) (value : AlgebraicValue) :
    Option (List RowId) :=
  (alookup col_id t.indexes).map (fun idx => idx.seekIds value)

/-- Modelled from the spec: `sequence.rs` is not in the snapshot.  A
sequence (section 4.4) holds its schema (with the committed `allocated`
high-water mark) and an in-memory monotonic counter; the counter starts at
`start` and `gen_next_value` hands out the counter value iff it remains
within the allocation. -/
structure Sequence where
  schema : SequenceSchema
  value : Int
deriving DecidableEq, Repr

/-- Modelled from the spec: `Sequence::new` starts the counter at
`start`. -/
def Sequence.new (schema : SequenceSchema) : Sequence :=
  ⟨schema, schema.start⟩

/-- Modelled from the spec: `nth_value(n)` is the value `n` steps ahead of
the counter. -/
def Sequence.nth_value (s : Sequence) (n : Nat) : Int :=
  s.value + s.schema.increment * n

/-- Modelled from the spec: `gen_next_value` returns the counter and steps
it by `increment` iff the counter remains `≤ allocated`, else `None`. -/
def Sequence.gen_next_value (s : Sequence) : Option (Int × Sequence) :=
  if s.value ≤ s.schema.allocated then
    some (s.value, { s with value := s.value + s.schema.increment })
  else none

/-- Modelled from the spec: `set_allocation(v)` updates the cap. -/
def Sequence.set_allocation (s : Sequence) (v : Int) : Sequence :=
  { s with schema := { s.schema with allocated := v } }

/-- System table id of `st_table` (`ST_TABLES_ID = 0`). -/
def ST_TABLES_ID : Nat := 0

/-- System table id of `st_columns` (`ST_COLUMNS_ID = 1`). -/
def ST_COLUMNS_ID : Nat := 1

/-- System table id of `st_sequences` (`ST_SEQUENCES_ID = 2`). -/
def ST_SEQUENCES_ID : Nat := 2

/-- System table id of `st_indexes` (`ST_INDEXES_ID = 3`). -/
def ST_INDEXES_ID : Nat := 3

/-- The `SEQUENCE_PREALLOCATION_AMOUNT` constant. -/
def SEQUENCE_PREALLOCATION_AMOUNT : Int := 4096

/-- Write operation kind (`messages::write::Operation`). -/
inductive WriteOp where
  | insertOp
  | deleteOp
deriving DecidableEq, Repr

/-- One entry of the commit write log (`messages::write::Write`): operation,
table id (`set_id`) and the row's `DataKey`. -/
structure Write where
  operation : WriteOp
  set_id : Nat
  data_key : RowId
deriving DecidableEq, Repr

/-- A committed transaction's write log
(`messages::transaction::Transaction`). -/
structure Transaction where
  writes : List Write
deriving DecidableEq, Repr

/-- Row overlay status in the open transaction (`RowOp`). -/
inductive RowOp where
  | rIns
  | rDel
  | rAbs
deriving DecidableEq, Repr

/-- The committed (post-last-commit) state: `TableId → Table`. -/
structure CommittedState where
  tables : List (Nat × Table)
deriving DecidableEq, Repr

/-- Per-transaction overlay: shadow insert tables and per-table tombstone
sets (`TxState`). -/
structure TxState where
  insert_tables : List (Nat × Table)
  delete_tables : List (Nat × List RowId)
deriving DecidableEq, Repr

/-- Live sequence counter cache (`SequencesState`). -/
structure SequencesState where
  sequences : List (Nat × Sequence)
deriving DecidableEq, Repr

/-- The datastore (`Inner`): committed state, the optional open transaction
and the sequence cache.  The blob side-table is omitted (see the header
comment). -/
structure Inner where
  committed_state : CommittedState
  tx_state : Option TxState
  sequence_state : SequencesState
deriving DecidableEq, Repr

/-- Add an element to a tombstone set (`BTreeSet::insert`). -/
def setAdd (r : RowId) (l : List RowId) : List RowId :=
  if r ∈ l then l else l ++ [r]

/-- Remove an element from a tombstone set (`BTreeSet::remove`). -/
def setDel (r : RowId) (l : List RowId) : List RowId :=
  l.filter (fun x => ¬x = r)

/-- Whether `row_id` is tombstoned for `table_id`
(`delete_tables.get(t).map(|s| s.contains(r)) == Some(true)`). -/
def TxState.tombstoned (ts : TxState) (table_id : Nat) (row_id : RowId) : Bool :=
  (alookup table_id ts.delete_tables).elim false (fun l => row_id ∈ l)

/-- The `TxState::get_row_op` classification: tombstone wins, then shadow
membership, else absent. -/
def TxState.get_row_op (ts : TxState) (table_id : Nat) (row_id : RowId) : RowOp :=
  if ts.tombstoned table_id row_id then .rDel
  else
    match alookup table_id ts.insert_tables with
    | none => .rAbs
    | some tbl => match tbl.get_row row_id with
      | some _ => .rIns
      | none => .rAbs

/-- The `TxState::get_row` read: `None` when tombstoned, else the shadow
insert-table's row. -/
def TxState.get_row (ts : TxState) (table_id : Nat) (row_id : RowId) : Option ProductValue :=
  if ts.tombstoned table_id row_id then none
  else (alookup table_id ts.insert_tables).bind (fun tbl => tbl.get_row row_id)

/-- The `TxState::index_seek` read: shadow-index matches for the value when
the shadow table has an index on the column. -/
def TxState.index_seek (ts : TxState) (table_id col_id : Nat) (value : AlgebraicValue) :
    Option (List RowId) :=
  (alookup table_id ts.insert_tables).bind (fun tbl => tbl.index_seek col_id value)

/-- The `get_or_create_delete_table(t).insert(r)` step of
`delete_row_internal`. -/
def TxState.add_tombstone (ts : TxState) (table_id : Nat) (row_id : RowId) : TxState :=
  match alookup table_id ts.delete_tables with
  | none => { ts with delete_tables := ainsert table_id [row_id] ts.delete_tables }
  | some l => { ts with delete_tables := ainsert table_id (setAdd row_id l) ts.delete_tables }

/-- The `get_or_create_delete_table(t).remove(r)` step at the end of
`insert_row_internal` (re-insert after delete is legal); note that this
creates an empty tombstone entry when none existed, as the code does. -/
def TxState.clear_tombstone (ts : TxState) (table_id : Nat) (row_id : RowId) : TxState :=
  match alookup table_id ts.delete_tables with
  | none => { ts with delete_tables := ainsert table_id [] ts.delete_tables }
  | some l => { ts with delete_tables := ainsert table_id (setDel row_id l) ts.delete_tables }

/-- The shadow-table removal step of `delete_row_internal` (remove the row
from the insert table when that table exists). -/
def TxState.shadow_delete (ts : TxState) (table_id : Nat) (row_id : RowId) : TxState :=
  { ts with insert_tables := aupdate table_id (fun t => t.deleteRow row_id) ts.insert_tables }

/-- The `CommittedState::get_or_create_table` step: materialize an absent
table with the given row type and schema. -/
def CommittedState.get_or_create_table (cs : CommittedState) (table_id : Nat)
    (row_type : ProductType) (schema : TableSchema) : CommittedState :=
  match alookup table_id cs.tables with
  | some _ => cs
  | none => ⟨ainsert table_id ⟨row_type, schema, [], []⟩ cs.tables⟩

/-- In-place mutation of a committed table (the `&mut Table` borrows). -/
def CommittedState.updateTable (cs : CommittedState) (table_id : Nat) (f : Table → Table) :
    CommittedState :=
  ⟨aupdate table_id f cs.tables⟩

/-- The `CommittedState::index_seek` read. -/
def CommittedState.index_seek (cs : CommittedState) (table_id col_id : Nat)
    (value : AlgebraicValue) : Option (List RowId) :=
  (alookup table_id cs.tables).bind (fun tbl => tbl.index_seek col_id value)

/-- Pass 1 of `CommittedState::merge` for one shadow table: materialize the
committed table, insert every shadow row (logging an `Insert` write), then
attach shadow indexes whose column has no committed index yet. -/
def CommittedState.mergeInsertTable (acc : CommittedState × List Write)
    (p : Nat × Table) : CommittedState × List Write :=
  let cs := (acc.1.get_or_create_table p.1 p.2.row_type p.2.schema)
  let step := p.2.rows.foldl
    (fun (a : CommittedState × List Write) (q : RowId × ProductValue) =>
      (a.1.updateTable p.1 (fun t => t.insertRow q.1 q.2),
       a.2 ++ [⟨.insertOp, p.1, q.1⟩]))
    (cs, acc.2)
  let cs2 := p.2.indexes.foldl
    (fun (c : CommittedState) (r : Nat × BTreeIndex) =>
      c.updateTable p.1 (fun t =>
        if (alookup r.2.col_id t.indexes).isSome then t else t.insert_index r.2))
    step.1
  (cs2, step.2)

/-- Pass 2 of `CommittedState::merge` for one tombstone set: when the
committed table exists, delete each tombstoned row and log a `Delete`
write; otherwise skip the set silently. -/
def CommittedState.mergeDeleteTable (acc : CommittedState × List Write)
    (p : Nat × List RowId) : CommittedState × List Write :=
  if (alookup p.1 acc.1.tables).isSome then
    p.2.foldl
      (fun (a : CommittedState × List Write) (rid : RowId) =>
        (a.1.updateTable p.1 (fun t => t.deleteRow rid),
         a.2 ++ [⟨.deleteOp, p.1, rid⟩]))
      acc
  else acc

/-- The `CommittedState::merge` commit algorithm: merge all shadow inserts,
then process all tombstone sets, returning the write log. -/
def CommittedState.merge (cs : CommittedState) (ts : TxState) :
    Transaction × CommittedState :=
  let pass1 := ts.insert_tables.foldl CommittedState.mergeInsertTable (cs, [])
  let pass2 := ts.delete_tables.foldl CommittedState.mergeDeleteTable pass1
  (⟨pass2.2⟩, pass2.1)

/-- State-passing computation over the datastore.  Errors model the `?`
propagation of `Result` in Rust: the state mutated so far is kept (the Rust
methods mutate `self` in place, so writes made before a failing step
survive it). -/
def M (α : Type) : Type := Inner → Except Err α × Inner

/-- Lift a value (`Ok`). -/
def M.pure (a : α) : M α := fun s => (.ok a, s)

/-- Sequencing with `?`-style error propagation. -/
def M.bind (x : M α) (f : α → M β) : M β := fun s =>
  match x s with
  | (.ok a, s') => f a s'
  | (.error e, s') => (.error e, s')

instance : Monad M where
  pure := M.pure
  bind := M.bind

/-- Fail with an error, leaving the state as-is. -/
def M.fail (e : Err) : M α := fun s => (.error e, s)

/-- The `Inner::contains_row` read: shadow op decides first (`Insert` →
present, `Delete` → absent), else committed membership.  The Rust method
unwraps the open transaction; the claims are all stated with an open
transaction, and the closed-transaction panic is modelled as `false`. -/
def Inner.contains_row (s : Inner) (table_id : Nat) (row_id : RowId) : Bool :=
  match s.tx_state with
  | none => false
  | some ts =>
      match ts.get_row_op table_id row_id with
      | .rIns => true
      | .rDel => false
      | .rAbs =>
          ((alookup table_id s.committed_state.tables).map
            (fun t => (alookup row_id t.rows).isSome)).getD false

/-- The `Inner::table_exists` read: shadow table or committed table
present.  As with `contains_row`, the closed-transaction panic is modelled
as consulting only the committed side. -/
def Inner.table_exists (s : Inner) (table_id : Nat) : Bool :=
  (match s.tx_state with
   | none => false
   | some ts => (alookup table_id ts.insert_tables).isSome)
  || (alookup table_id s.committed_state.tables).isSome

/-- The rows a full `ScanIter` yields, in order: from `Committed` stage the
committed rows whose tx row-op is `Absent`, then from `CurrentTx` stage all
shadow rows; when only the shadow table exists, just the shadow rows. -/
def Inner.scanRows (s : Inner) (ts : TxState) (table_id : Nat) : List ProductValue :=
  match alookup table_id s.committed_state.tables with
  | some ct =>
      ((ct.rows.filter (fun p => ts.get_row_op table_id p.1 = .rAbs)).map (·.2))
        ++ (match alookup table_id ts.insert_tables with
            | some it => it.scan_rows
            | none => [])
  | none =>
      match alookup table_id ts.insert_tables with
      | some it => it.scan_rows
      | none => []

/-- The `Inner::scan` entry point: `IdNotFound` for a missing table, else
the `ScanIter` yields. -/
def Inner.scanList (s : Inner) (table_id : Nat) : Except Err (List ProductValue) :=
  match s.tx_state with
  | none => .error .panicked
  | some ts =>
      if s.table_exists table_id then .ok (s.scanRows ts table_id)
      else .error (.tableIdNotFound table_id)

/-- The rows the index-backed seek path (`IndexSeekIter` over
`IndexSeekIterInner`) yields: shadow-index matches resolved through
`TxState::get_row`, then committed-index matches filtered by the tombstone
set and resolved through the committed table; the outer iterator filters
both by equality on the sought column.  The `unwrap`s on row resolution are
modelled as `panicked`. -/
def Inner.indexSeekPath (s : Inner) (ts : TxState) (table_id col_id : Nat)
    (value : AlgebraicValue) : Except Err (List ProductValue) :=
  match ts.index_seek table_id col_id value with
  | none => .error .panicked
  | some inserted =>
      match inserted.mapM (fun rid =>
        match ts.get_row table_id rid with
        | some row => Except.ok row
        | none => Except.error Err.panicked) with
      | .error e => .error e
      | .ok shadowRows =>
          match (((s.committed_state.index_seek table_id col_id value).getD []).filter
              (fun rid => ¬ts.tombstoned table_id rid)).mapM (fun rid =>
                match (alookup table_id s.committed_state.tables).bind
                    (fun t => t.get_row rid) with
                | some row => Except.ok row
                | none => Except.error Err.panicked) with
          | .error e => .error e
          | .ok commRows =>
              .ok ((shadowRows ++ commRows).filter (fun row => row.field col_id = value))

/-- The rows the scan-based seek path (`ScanSeekIter`) yields: the full
scan filtered by equality on the sought column. -/
def Inner.scanSeekPath (s : Inner) (ts : TxState) (table_id col_id : Nat)
    (value : AlgebraicValue) : Except Err (List ProductValue) :=
  if s.table_exists table_id then
    .ok ((s.scanRows ts table_id).filter (fun row => row.field col_id = value))
  else .error (.tableIdNotFound table_id)

/-- The `Inner::seek` dispatch: the index path when the shadow insert-table
has an index on the column, else the scan path. -/
def Inner.seekList (s : Inner) (table_id col_id : Nat) (value : AlgebraicValue) :
    Except Err (List ProductValue) :=
  match s.tx_state with
  | none => .error .panicked
  | some ts =>
      if (ts.index_seek table_id col_id value).isSome then
        s.indexSeekPath ts table_id col_id value
      else
        s.scanSeekPath ts table_id col_id value

/-- The `Inner::get_row` read: `IdNotFound` for a missing table; shadow op
`Insert` resolves through the tx state, `Delete` yields `None`, `Absent`
falls through to the committed table. -/
def Inner.get_rowE (s : Inner) (table_id : Nat) (row_id : RowId) :
    Except Err (Option ProductValue) :=
  match s.tx_state with
  | none => .error .panicked
  | some ts =>
      if ¬s.table_exists table_id then .error (.tableIdNotFound table_id)
      else
        match ts.get_row_op table_id row_id with
        | .rIns => .ok (ts.get_row table_id row_id)
        | .rDel => .ok none
        | .rAbs => .ok ((alookup table_id s.committed_state.tables).bind
            (fun t => t.get_row row_id))

/-- The `Inner::get_schema` cache read: the shadow table's schema when
present, else the committed table's. -/
def Inner.get_schema (s : Inner) (table_id : Nat) : Option TableSchema :=
  match (match s.tx_state with
         | none => none
         | some ts => (alookup table_id ts.insert_tables).map (fun (t : Table) => t.schema)) with
  | some sch => some sch
  | none => (alookup table_id s.committed_state.tables).map (fun (t : Table) => t.schema)

/-- The `Inner::get_row_type` cache read. -/
def Inner.get_row_type (s : Inner) (table_id : Nat) : Option ProductType :=
  match (match s.tx_state with
         | none => none
         | some ts => (alookup table_id ts.insert_tables).map (fun (t : Table) => t.row_type)) with
  | some rt => some rt
  | none => (alookup table_id s.committed_state.tables).map (fun (t : Table) => t.row_type)

/-- In-memory row of `st_table` (`system_tables::StTableRow`).  Modelled
from the spec and the bootstrap test: the stored row carries `table_id`,
`table_name` and the `is_system_table` flag listed in `st_columns`; the
struct exposes the first two. -/
structure StTableRow where
  table_id : Nat
  table_name : String
deriving DecidableEq, Repr

/-- Conversion `ProductValue::from(&StTableRow)` (the `is_system_table`
column defaults to `false` for rows written through this path). -/
def StTableRow.toProductValue (r : StTableRow) : ProductValue :=
  ⟨[.vU32 r.table_id, .vString r.table_name, .vBool false]⟩

/-- Conversion `StTableRow::try_from(&ProductValue)`. -/
def StTableRow.tryFrom (v : ProductValue) : Option StTableRow :=
  match v.elements with
  | .vU32 tid :: .vString name :: _ => some ⟨tid, name⟩
  | _ => none

/-- Injective byte encoding of a column type, standing for the serialized
`AlgebraicType` stored in the `col_type` column of `st_columns`. -/
def encodeAT : AlgebraicType → List Nat
  | .tI8 => [0] | .tU8 => [1] | .tI16 => [2] | .tU16 => [3]
  | .tI32 => [4] | .tU32 => [5] | .tI64 => [6] | .tU64 => [7]
  | .tI128 => [8] | .tU128 => [9] | .tBool => [10] | .tString => [11]
  | .tBytes => [12] | .other => [13]

/-- Partial inverse of `encodeAT` (deserialization of a stored column
type). -/
def decodeAT : List Nat → Option AlgebraicType
  | [0] => some .tI8 | [1] => some .tU8 | [2] => some .tI16 | [3] => some .tU16
  | [4] => some .tI32 | [5] => some .tU32 | [6] => some .tI64 | [7] => some .tU64
  | [8] => some .tI128 | [9] => some .tU128 | [10] => some .tBool
  | [11] => some .tString | [12] => some .tBytes | [13] => some .other
  | _ => none

/-- In-memory row of `st_columns` (`system_tables::StColumnRow`), column
order `table_id, col_id, col_type, col_name, is_autoinc` as asserted by
the bootstrap test. -/
structure StColumnRow where
  table_id : Nat
  col_id : Nat
  col_name : String
  col_type : AlgebraicType
  is_autoinc : Bool
deriving DecidableEq, Repr

/-- Conversion `ProductValue::from(&StColumnRow)`. -/
def StColumnRow.toProductValue (r : StColumnRow) : ProductValue :=
  ⟨[.vU32 r.table_id, .vU32 r.col_id, .vBytes (encodeAT r.col_type),
    .vString r.col_name, .vBool r.is_autoinc]⟩

/-- Conversion `StColumnRow::try_from(&ProductValue)`. -/
def StColumnRow.tryFrom (v : ProductValue) : Option StColumnRow :=
  match v.elements with
  | [.vU32 tid, .vU32 cid, .vBytes ty, .vString name, .vBool auto] =>
      (decodeAT ty).map (fun t => ⟨tid, cid, name, t, auto⟩)
  | _ => none

/-- Insertion sort key step for `columns.sort_by_key(|col| col.col_id)`. -/
def insertSortedByColId (c : ColumnSchema) : List ColumnSchema → List ColumnSchema
  | [] => [c]
  | d :: rest => if c.col_id < d.col_id then c :: d :: rest else d :: insertSortedByColId c rest

/-- Stable sort of the reconstructed columns by `col_id`. -/
def sortByColId (l : List ColumnSchema) : List ColumnSchema :=
  l.foldr insertSortedByColId []

/-- The `Inner::schema_for_table` read: the cached schema when the table is
materialized, else reconstruction from `st_table`, `st_columns` and
`st_indexes` (columns sorted by `col_id`); the `assert!` on at most one
`st_table` row is modelled as a panic. -/
def Inner.schema_for_table (s : Inner) (table_id : Nat) : Except Err TableSchema :=
  match s.get_schema table_id with
  | some sch => .ok sch
  | none => do
      let rows ← s.seekList ST_TABLES_ID 0 (.vU32 table_id)
      if rows.length > 1 then .error .panicked
      else
        match rows.head? with
        | none => .error (.tableIdNotFound table_id)
        | some row =>
            match StTableRow.tryFrom row with
            | none => .error .decodeError
            | some el => do
                let colRows ← s.seekList ST_COLUMNS_ID 0 (.vU32 el.table_id)
                let cols ← colRows.mapM (fun r =>
                  match StColumnRow.tryFrom r with
                  | some c => Except.ok (ColumnSchema.mk c.table_id c.col_id c.col_name
                      c.col_type c.is_autoinc)
                  | none => Except.error Err.decodeError)
                let idxRows ← s.seekList ST_INDEXES_ID 1 (.vU32 el.table_id)
                let idxs ← idxRows.mapM (fun r =>
                  match StIndexRow.tryFrom r with
                  | some i => Except.ok (IndexSchema.mk i.index_id i.table_id i.col_id
                      i.index_name i.is_unique)
                  | none => Except.error Err.decodeError)
                Except.ok ⟨el.table_id, el.table_name, sortByColId cols, idxs⟩

/-- The `Inner::row_type_for_table` read: the cached row type when
materialized, else the projection of the reconstructed schema's column
types. -/
def Inner.row_type_for_table (s : Inner) (table_id : Nat) : Except Err ProductType :=
  match s.get_row_type table_id with
  | some rt => .ok rt
  | none => (s.schema_for_table table_id).map (fun sch => ⟨sch.columns.map (·.col_type)⟩)

/-- The `Inner::can_replace_with_sequence` test: the value is a numeric
builtin equal to zero.  The float variants (`F32`/`F64` compared with
`0.0`) are not representable in this model and no verified path produces
them. -/
def can_replace_with_sequence : AlgebraicValue → Bool
  | .vI8 x => x = 0
  | .vU8 x => x = 0
  | .vI16 x => x = 0
  | .vU16 x => x = 0
  | .vI32 x => x = 0
  | .vU32 x => x = 0
  | .vI64 x => x = 0
  | .vU64 x => x = 0
  | .vI128 x => x = 0
  | .vU128 x => x = 0
  | _ => false

/-- Truncating cast of an `i128` to an unsigned width (Rust `as uN`). -/
def wrapU (w : Nat) (v : Int) : Nat := (v % ((2 : Int) ^ w)).toNat

/-- Truncating cast of an `i128` to a signed width (Rust `as iN`). -/
def wrapI (w : Nat) (v : Int) : Int :=
  let m := v % ((2 : Int) ^ w)
  if m < (2 : Int) ^ (w - 1) then m else m - (2 : Int) ^ w

/-- The `Inner::sequence_value_to_algebraic_value` coercion of a sequence
value into the integer column's width; non-integer column types fail with
`NotInteger`. -/
def sequence_value_to_algebraic_value (table_name col_name : String)
    (ty : AlgebraicType) (v : Int) : Except Err AlgebraicValue :=
  match ty with
  | .tI8 => .ok (.vI8 (wrapI 8 v))
  | .tU8 => .ok (.vU8 (wrapU 8 v))
  | .tI16 => .ok (.vI16 (wrapI 16 v))
  | .tU16 => .ok (.vU16 (wrapU 16 v))
  | .tI32 => .ok (.vI32 (wrapI 32 v))
  | .tU32 => .ok (.vU32 (wrapU 32 v))
  | .tI64 => .ok (.vI64 (wrapI 64 v))
  | .tU64 => .ok (.vU64 (wrapU 64 v))
  | .tI128 => .ok (.vI128 (wrapI 128 v))
  | .tU128 => .ok (.vU128 (wrapU 128 v))
  | t => .error (.seqNotInteger (table_name ++ "." ++ col_name) t)

/-- The column name the `UniqueConstraintViolation` error reports
(`schema.columns[index.col_id].col_name`; out-of-range panics in Rust and
is modelled as the empty name). -/
def colNameAt (sch : TableSchema) (col_id : Nat) : String :=
  ((sch.columns.get? col_id).map (·.col_name)).getD ""

/-- The `UniqueConstraintViolation` error built at a violating index. -/
def mkUniqueErr (sch : TableSchema) (idx : BTreeIndex) (row : ProductValue) : Err :=
  .uniqueViolation idx.name sch.table_name (colNameAt sch idx.col_id) (row.field idx.col_id)

/-- The shadow-table materialization step of `insert_row_internal`: when no
shadow insert-table exists yet, clone the committed table's row type,
schema and empty index shells; a table absent from both layers is
`IdNotFound`. -/
def TxState.ensure_insert_table (ts : TxState) (cs : CommittedState) (table_id : Nat) :
    Except Err TxState :=
  match alookup table_id ts.insert_tables with
  | some _ => .ok ts
  | none =>
      match alookup table_id cs.tables with
      | none => .error (.tableIdNotFound table_id)
      | some ct =>
          let fresh : Table :=
            { row_type := ct.row_type
              schema := ct.schema
              rows := []
              indexes := ct.indexes.map (fun p =>
                (p.1, BTreeIndex.new p.2.index_id p.2.table_id p.2.col_id p.2.name
                  p.2.is_unique)) }
          .ok { ts with insert_tables := ainsert table_id fresh ts.insert_tables }

/-- The committed-layer unique pre-check of `insert_row_internal`: for each
committed index, a violating `RowId` that is not tombstoned aborts with
`UniqueConstraintViolation`. -/
def committedUniqueCheck (cs : CommittedState) (ts : TxState) (table_id : Nat)
    (row : ProductValue) : Option Err :=
  match alookup table_id cs.tables with
  | none => none
  | some ct =>
      ct.indexes.findSome? (fun p =>
        match p.2.get_rows_that_violate_unique_constraint row with
        | none => none
        | some violators =>
            violators.findSome? (fun rid =>
              match alookup table_id ts.delete_tables with
              | some dset =>
                  if rid ∈ dset then none else some (mkUniqueErr ct.schema p.2 row)
              | none => some (mkUniqueErr ct.schema p.2 row)))

/-- The `Inner::insert_row_internal` pipeline: derive the `RowId`, ensure a
shadow insert-table, run the shadow-layer then committed-layer unique
pre-checks, check arity (`RowInvalidType`), insert into the shadow table
and clear the row's tombstone. -/
def Inner.insert_row_internal (table_id : Nat) (row : ProductValue) : M Unit := fun s =>
  match s.tx_state with
  | none => (.error .panicked, s)
  | some ts0 =>
      match ts0.ensure_insert_table s.committed_state table_id with
      | .error e => (.error e, s)
      | .ok ts =>
          match alookup table_id ts.insert_tables with
          | none => (.error .panicked, { s with tx_state := some ts })
          | some it =>
              match it.indexes.find? (fun p => p.2.violates_unique_constraint row) with
              | some p => (.error (mkUniqueErr it.schema p.2 row), { s with tx_state := some ts })
              | none =>
                  match committedUniqueCheck s.committed_state ts table_id row with
                  | some e => (.error e, { s with tx_state := some ts })
                  | none =>
                      if it.row_type.elements.length ≠ row.elements.length then
                        (.error (.rowInvalidType table_id row), { s with tx_state := some ts })
                      else
                        (.ok (),
                         { s with
                             tx_state := some
                               (TxState.clear_tombstone
                                 { ts with
                                     insert_tables := aupdate table_id
                                       (fun t => t.insertRow row.to_data_key row)
                                       ts.insert_tables }
                                 table_id row.to_data_key) })

/-- The `Inner::delete_row_internal` pipeline: when `contains_row`, add the
tombstone and drop the row from the shadow insert-table; idempotent
otherwise. -/
def Inner.delete_row_internal (s : Inner) (table_id : Nat) (row_id : RowId) :
    Bool × Inner :=
  if s.contains_row table_id row_id then
    match s.tx_state with
    | none => (false, s)
    | some ts =>
        let ts1 := (ts.add_tombstone table_id row_id).shadow_delete table_id row_id
        (true, { s with tx_state := some ts1 })
  else (false, s)

/-- The `Inner::delete_row` wrapper (always `Ok`). -/
def Inner.delete_row (table_id : Nat) (row_id : RowId) : M Bool := fun s =>
  let p := s.delete_row_internal table_id row_id
  (.ok p.1, p.2)

/-- The `Inner::delete_rows_in` loop: delete each row by its content key
and count the ones that existed. -/
def Inner.delete_rows_in (table_id : Nat) (relation : List ProductValue) :
    M (Option Nat) := fun s =>
  let p := relation.foldl
    (fun (a : Nat × Inner) (tuple : ProductValue) =>
      let q := a.2.delete_row_internal table_id tuple.to_data_key
      (if q.1 then a.1 + 1 else a.1, q.2))
    (0, s)
  (.ok (some p.1), p.2)

/-- The `Inner::commit` step: take the transaction state and merge it into
the committed state, always yielding `Some` write log. -/
def Inner.commit : M (Option Transaction) := fun s =>
  match s.tx_state with
  | none => (.error .panicked, s)
  | some ts =>
      let p := s.committed_state.merge ts
      (.ok (some p.1), { s with committed_state := p.2, tx_state := none })

/-- The `Inner::rollback` step: drop the transaction state. -/
def Inner.rollback (s : Inner) : Inner :=
  { s with tx_state := none }

/-- Removal of one index from one table as `drop_index_internal` performs
it: drop every index whose `index_id` matches from the column map and prune
`schema.indexes` by those columns. -/
def Table.dropIndexById (t : Table) (index_id : Nat) : Table :=
  let cols := (t.indexes.filter (fun p => p.2.index_id = index_id)).map (fun p => p.2.col_id)
  { t with
    indexes := cols.foldl (fun m c => aerase c m) t.indexes
    schema := { t.schema with
      indexes := t.schema.indexes.filter (fun x => ¬x.col_id ∈ cols) }}

/-- The `Inner::drop_index_internal` step: remove the index from every
committed table in place, and from the shadow insert-table looked up at
`TableId(index_id.0)` (the code reuses the index id as a table id here). -/
def Inner.drop_index_internal (s : Inner) (index_id : Nat) : Inner :=
  let cs := CommittedState.mk (s.committed_state.tables.map
    (fun p => (p.1, p.2.dropIndexById index_id)))
  let tx := s.tx_state.map (fun ts =>
    let newIns := aupdate index_id (fun t => t.dropIndexById index_id) ts.insert_tables
    { ts with insert_tables := newIns })
  { s with committed_state := cs, tx_state := tx }

/-- The `Inner::drop_index` operation: find the `st_indexes` row by index
id, tombstone it, then remove the live index
(`drop_index_internal`). -/
def Inner.drop_index (index_id : Nat) : M Unit := fun s =>
  match s.seekList ST_INDEXES_ID 0 (.vU32 index_id) with
  | .error e => (.error e, s)
  | .ok rows =>
      match rows.getLast? with
      | none => (.error .panicked, s)
      | some old_index_row =>
          let p := s.delete_row_internal ST_INDEXES_ID old_index_row.to_data_key
          (.ok (), p.2.drop_index_internal index_id)

/-- Update one live sequence counter in place. -/
def Inner.putSequence (s : Inner) (seq_id : Nat) (seq : Sequence) : Inner :=
  { s with sequence_state := ⟨ainsert seq_id seq s.sequence_state.sequences⟩ }

/-- The inner loop of the auto-increment substitution of
`Inner::insert_row`: decode each `st_sequences` row found for the table
(`?` on decode), skip those on other columns, and at the first match draw
the next sequence value through the given allocator, coerce it to the
column's integer width and substitute it into the row (then break).  The
allocator is `get_next_sequence_value` at the ambient recursion bound; it
is a parameter so that every function here is structurally recursive and
kernel-evaluable. -/
def Inner.findMatchingSequence (gnsv : Nat → M Int) (seqRows : List ProductValue)
    (col : ColumnSchema) (table_name : String) (row : ProductValue) : M ProductValue :=
  match seqRows with
  | [] => fun s => (.ok row, s)
  | r :: rest => fun s =>
      match StSequenceRow.tryFrom r with
      | none => (.error .decodeError, s)
      | some sr =>
          if sr.col_id ≠ col.col_id then
            Inner.findMatchingSequence gnsv rest col table_name row s
          else
            match gnsv sr.sequence_id s with
            | (.error e, s1) => (.error e, s1)
            | (.ok v, s1) =>
                match sequence_value_to_algebraic_value table_name col.col_name
                    col.col_type v with
                | .error e => (.error e, s1)
                | .ok av => (.ok (row.setField col.col_id av), s1)

/-- The auto-increment loop of `Inner::insert_row` over the schema's
columns: a non-auto-inc column, or an auto-inc column whose incoming value
is not numerically zero, is left alone; otherwise the matching sequence is
sought in `st_sequences` by table id and the value substituted. -/
def Inner.substituteAutoinc (gnsv : Nat → M Int) (cols : List ColumnSchema)
    (table_name : String) (table_id : Nat) (row : ProductValue) : M ProductValue :=
  match cols with
  | [] => fun s => (.ok row, s)
  | col :: rest => fun s =>
      if col.is_autoinc && can_replace_with_sequence (row.field col.col_id) then
        match s.seekList ST_SEQUENCES_ID 2 (.vU32 table_id) with
        | .error e => (.error e, s)
        | .ok seqRows =>
            match Inner.findMatchingSequence gnsv seqRows col table_name row s with
            | (.error e, s1) => (.error e, s1)
            | (.ok row1, s1) => Inner.substituteAutoinc gnsv rest table_name table_id row1 s1
      else Inner.substituteAutoinc gnsv rest table_name table_id row s

/-- The `Inner::insert_row` body, parameterized by the sequence allocator:
look the schema up, substitute auto-increment columns whose incoming value
is numerically zero, then run `insert_row_internal` and return the
(possibly substituted) row. -/
def Inner.insert_rowAux (gnsv : Nat → M Int) (table_id : Nat) (row : ProductValue) :
    M ProductValue := fun s =>
  match s.schema_for_table table_id with
  | .error e => (.error e, s)
  | .ok schema =>
      match Inner.substituteAutoinc gnsv schema.columns schema.table_name table_id row s with
      | (.error e, s1) => (.error e, s1)
      | (.ok row1, s1) =>
          match Inner.insert_row_internal table_id row1 s1 with
          | (.error e, s2) => (.error e, s2)
          | (.ok _, s2) => (.ok row1, s2)

/-- The tail of the sequence refill: insert the rewritten `st_sequences`
row through the ordinary insert pipeline, then retry `gen_next_value` once,
failing `UnableToAllocate` when the sequence is still exhausted. -/
def Inner.seqRetry (gnsv : Nat → M Int) (seq_id : Nat) (newRow : ProductValue) :
    M Int := fun s =>
  match Inner.insert_rowAux gnsv ST_SEQUENCES_ID newRow s with
  | (.error e, s2) => (.error e, s2)
  | (.ok _, s2) =>
      match alookup seq_id s2.sequence_state.sequences with
      | none => (.error (.seqNotFound seq_id), s2)
      | some seq2 =>
          match seq2.gen_next_value with
          | some q => (.ok q.1, s2.putSequence seq_id q.2)
          | none => (.error (.seqUnableToAllocate seq_id), s2)

/-- The `Inner::get_next_sequence_value` allocator: missing sequence fails
`NotFound`; otherwise hand out the next pre-allocated value, or refill by
allocating a batch of 1024 values — rewriting the sequence's
`st_sequences` row as a delete+insert in the current transaction, updating
the in-memory counter — and retry once, failing `UnableToAllocate` when
still exhausted.  `fuel` bounds the recursion through `insert_row` on
`st_sequences` (itself re-entering this allocator when the rewritten row's
auto-inc column is zero); exhaustion is the `panicked` outcome and is never
reached at the fuel used by the theorems. -/
def Inner.get_next_sequence_value (fuel : Nat) (seq_id : Nat) : M Int :=
  match fuel with
  | 0 => M.fail .panicked
  | fuel + 1 => fun s =>
      match alookup seq_id s.sequence_state.sequences with
      | none => (.error (.seqNotFound seq_id), s)
      | some seq =>
          match seq.gen_next_value with
          | some p => (.ok p.1, s.putSequence seq_id p.2)
          | none =>
              match s.seekList ST_SEQUENCES_ID 0 (.vU32 seq_id) with
              | .error e => (.error e, s)
              | .ok rows =>
                  match rows.getLast? with
                  | none => (.error .panicked, s)
                  | some old_seq_row =>
                      match alookup seq_id s.sequence_state.sequences with
                      | none => (.error (.seqNotFound seq_id), s)
                      | some sequence =>
                          match StSequenceRow.tryFrom old_seq_row with
                          | none => (.error .decodeError, s)
                          | some sr0 =>
                              Inner.seqRetry (Inner.get_next_sequence_value fuel) seq_id
                                (StSequenceRow.toProductValue
                                  { sr0 with allocated := sequence.nth_value 1024 })
                                ((s.putSequence seq_id
                                    (sequence.set_allocation (sequence.nth_value 1024))
                                  ).delete_row_internal ST_SEQUENCES_ID
                                  old_seq_row.to_data_key).2

/-- The `Inner::insert_row` entry point at recursion bound `fuel`. -/
def Inner.insert_row (fuel : Nat) (table_id : Nat) (row : ProductValue) :
    M ProductValue :=
  Inner.insert_rowAux (Inner.get_next_sequence_value fuel) table_id row

/-! Specification-level description of the commit write log, written from
the spec's words for comparison with `CommittedState::merge`: first one
`Insert` write per shadow row, then one `Delete` write per tombstone of
every table that exists in the committed state once the inserts are merged
(a pre-existing table or one materialized from a shadow table). -/

/-- The insert writes the spec expects: every `(row_id, row)` of every
shadow insert-table, in order. -/
def specInsertWrites (ts : TxState) : List Write :=
  ts.insert_tables.flatMap (fun p => p.2.rows.map (fun q => ⟨.insertOp, p.1, q.1⟩))

/-- Whether a table exists in the committed state after the insert pass of
the merge: it existed before, or a shadow insert-table materializes it. -/
def tableWillExist (cs : CommittedState) (ts : TxState) (table_id : Nat) : Bool :=
  (alookup table_id cs.tables).isSome || (alookup table_id ts.insert_tables).isSome

/-- The delete writes the spec expects: every tombstone of every table that
exists after the insert pass; tombstone sets of absent tables are dropped
silently. -/
def specDeleteWrites (cs : CommittedState) (ts : TxState) : List Write :=
  ts.delete_tables.flatMap (fun p =>
    if tableWillExist cs ts p.1 then p.2.map (fun rid => ⟨.deleteOp, p.1, rid⟩) else [])

/-- Table presence in a committed state. -/
def CommittedState.hasTable (cs : CommittedState) (table_id : Nat) : Bool :=
  (alookup table_id cs.tables).isSome

theorem hasTable_updateTable (cs : CommittedState) (tid tid' : Nat) (f : Table → Table) :
    (cs.updateTable tid f).hasTable tid' = cs.hasTable tid' := by
  simp only [CommittedState.hasTable, CommittedState.updateTable, alookup_aupdate]
  by_cases h : tid = tid' <;> simp [h, Option.isSome_map]

theorem hasTable_get_or_create (cs : CommittedState) (tid tid' : Nat) (rt : ProductType)
    (sch : TableSchema) :
    (cs.get_or_create_table tid rt sch).hasTable tid' =
      (cs.hasTable tid' || decide (tid = tid')) := by
  simp only [CommittedState.get_or_create_table]
  cases hl : alookup tid cs.tables with
  | some t =>
      by_cases h : tid = tid'
      · subst h; simp [CommittedState.hasTable, hl]
      · simp [CommittedState.hasTable, h]
  | none =>
      simp only [CommittedState.hasTable]
      rw [Bool.eq_iff_iff]
      constructor
      · intro h
        rcases (alookup_isSome_ainsert tid' tid _ cs.tables).symm ▸ h with h1 | h2
        · simp [h1]
        · simp [h2]
      · intro h
        rw [alookup_isSome_ainsert]
        rcases Bool.or_eq_true_iff.mp h with h1 | h2
        · exact Or.inr h1
        · exact Or.inl (of_decide_eq_true h2)

theorem rows_fold_writes (rows : List (RowId × ProductValue)) (tid : Nat)
    (c : CommittedState) (ws : List Write) :
    rows.foldl
      (fun (a : CommittedState × List Write) (q : RowId × ProductValue) =>
        (a.1.updateTable tid (fun t => t.insertRow q.1 q.2),
         a.2 ++ [⟨.insertOp, tid, q.1⟩]))
      (c, ws) =
    (rows.foldl (fun (c : CommittedState) (q : RowId × ProductValue) =>
        c.updateTable tid (fun t => t.insertRow q.1 q.2)) c,
     ws ++ rows.map (fun q => ⟨.insertOp, tid, q.1⟩)) := by
  induction rows generalizing c ws with
  | nil => simp
  | cons q rest ih => simp [List.foldl_cons, ih]

theorem hasTable_rows_fold (rows : List (RowId × ProductValue)) (tid tid' : Nat)
    (c : CommittedState) :
    (rows.foldl (fun (c : CommittedState) (q : RowId × ProductValue) =>
        c.updateTable tid (fun t => t.insertRow q.1 q.2)) c).hasTable tid' =
      c.hasTable tid' := by
  induction rows generalizing c with
  | nil => rfl
  | cons q rest ih => simp [List.foldl_cons, ih, hasTable_updateTable]

theorem hasTable_index_fold (idxs : List (Nat × BTreeIndex)) (tid tid' : Nat)
    (c : CommittedState) :
    (idxs.foldl
      (fun (c : CommittedState) (r : Nat × BTreeIndex) =>
        c.updateTable tid (fun t =>
          if (alookup r.2.col_id t.indexes).isSome then t else t.insert_index r.2)) c).hasTable
        tid' = c.hasTable tid' := by
  induction idxs generalizing c with
  | nil => rfl
  | cons q rest ih => simp [List.foldl_cons, ih, hasTable_updateTable]

theorem mergeInsertTable_writes (acc : CommittedState × List Write) (p : Nat × Table) :
    (CommittedState.mergeInsertTable acc p).2 =
      acc.2 ++ p.2.rows.map (fun q => ⟨.insertOp, p.1, q.1⟩) := by
  simp [CommittedState.mergeInsertTable, rows_fold_writes]

theorem mergeInsertTable_hasTable (acc : CommittedState × List Write) (p : Nat × Table)
    (tid' : Nat) :
    (CommittedState.mergeInsertTable acc p).1.hasTable tid' =
      (acc.1.hasTable tid' || decide (p.1 = tid')) := by
  simp [CommittedState.mergeInsertTable, rows_fold_writes, hasTable_index_fold,
    hasTable_rows_fold, hasTable_get_or_create]

theorem pass1_writes (l : List (Nat × Table)) (c : CommittedState) (ws : List Write) :
    (l.foldl CommittedState.mergeInsertTable (c, ws)).2 =
      ws ++ l.flatMap (fun p => p.2.rows.map (fun q => ⟨.insertOp, p.1, q.1⟩)) := by
  induction l generalizing c ws with
  | nil => simp
  | cons p rest ih =>
      calc ((p :: rest).foldl CommittedState.mergeInsertTable (c, ws)).2
          = (rest.foldl CommittedState.mergeInsertTable
              (CommittedState.mergeInsertTable (c, ws) p)).2 := by simp
        _ = _ := by
              rw [show CommittedState.mergeInsertTable (c, ws) p =
                ((CommittedState.mergeInsertTable (c, ws) p).1,
                 ws ++ p.2.rows.map (fun q => ⟨.insertOp, p.1, q.1⟩)) from ?_]
              · rw [ih]; simp
              · rw [← mergeInsertTable_writes (c, ws) p]

theorem pass1_hasTable (l : List (Nat × Table)) (c : CommittedState) (ws : List Write)
    (tid' : Nat) :
    (l.foldl CommittedState.mergeInsertTable (c, ws)).1.hasTable tid' =
      (c.hasTable tid' || (alookup tid' l).isSome) := by
  induction l generalizing c ws with
  | nil => simp
  | cons p rest ih =>
      rw [List.foldl_cons]
      rw [show CommittedState.mergeInsertTable (c, ws) p =
        ((CommittedState.mergeInsertTable (c, ws) p).1,
          (CommittedState.mergeInsertTable (c, ws) p).2) from rfl]
      rw [ih]
      rw [mergeInsertTable_hasTable (c, ws) p tid']
      obtain ⟨ptid, ptbl⟩ := p
      by_cases h : ptid = tid' <;> simp [alookup, h]

theorem delete_fold_writes (rids : List RowId) (tid : Nat) (c : CommittedState)
    (ws : List Write) :
    (rids.foldl
      (fun (a : CommittedState × List Write) (rid : RowId) =>
        (a.1.updateTable tid (fun t => t.deleteRow rid),
         a.2 ++ [⟨.deleteOp, tid, rid⟩]))
      (c, ws)) =
    (rids.foldl (fun (c : CommittedState) (rid : RowId) =>
        c.updateTable tid (fun t => t.deleteRow rid)) c,
     ws ++ rids.map (fun rid => ⟨.deleteOp, tid, rid⟩)) := by
  induction rids generalizing c ws with
  | nil => simp
  | cons q rest ih => simp [List.foldl_cons, ih]

theorem hasTable_delete_fold (rids : List RowId) (tid tid' : Nat) (c : CommittedState) :
    (rids.foldl (fun (c : CommittedState) (rid : RowId) =>
        c.updateTable tid (fun t => t.deleteRow rid)) c).hasTable tid' = c.hasTable tid' := by
  induction rids generalizing c with
  | nil => rfl
  | cons q rest ih => simp [List.foldl_cons, ih, hasTable_updateTable]

theorem mergeDeleteTable_writes (c : CommittedState) (ws : List Write)
    (p : Nat × List RowId) :
    (CommittedState.mergeDeleteTable (c, ws) p).2 =
      ws ++ (if c.hasTable p.1 then
        p.2.map (fun rid => ⟨.deleteOp, p.1, rid⟩) else []) := by
  unfold CommittedState.mergeDeleteTable
  simp only [CommittedState.hasTable]
  by_cases h : (alookup p.1 c.tables).isSome
  · simp [h, delete_fold_writes]
  · simp [h]

theorem mergeDeleteTable_hasTable (c : CommittedState) (ws : List Write)
    (p : Nat × List RowId) (tid' : Nat) :
    (CommittedState.mergeDeleteTable (c, ws) p).1.hasTable tid' = c.hasTable tid' := by
  unfold CommittedState.mergeDeleteTable
  by_cases h : (alookup p.1 c.tables).isSome
  · simp [h, delete_fold_writes, hasTable_delete_fold]
  · simp [h]

theorem pass2_writes (l : List (Nat × List RowId)) (c : CommittedState) (ws : List Write) :
    (l.foldl CommittedState.mergeDeleteTable (c, ws)).2 =
      ws ++ l.flatMap (fun p =>
        if c.hasTable p.1 then p.2.map (fun rid => ⟨.deleteOp, p.1, rid⟩) else []) := by
  induction l generalizing c ws with
  | nil => simp
  | cons p rest ih =>
      rw [List.foldl_cons]
      have h2 := mergeDeleteTable_writes c ws p
      have h1 := mergeDeleteTable_hasTable c ws p
      rw [show CommittedState.mergeDeleteTable (c, ws) p =
        ((CommittedState.mergeDeleteTable (c, ws) p).1,
          (CommittedState.mergeDeleteTable (c, ws) p).2) from rfl]
      rw [ih]
      rw [h2]
      simp only [h1]
      simp [List.append_assoc]

theorem merge_writes_spec (cs : CommittedState) (ts : TxState) :
    (cs.merge ts).1.writes = specInsertWrites ts ++ specDeleteWrites cs ts := by
  simp only [CommittedState.merge]
  rw [show ts.insert_tables.foldl CommittedState.mergeInsertTable (cs, []) =
    ((ts.insert_tables.foldl CommittedState.mergeInsertTable (cs, [])).1,
     (ts.insert_tables.foldl CommittedState.mergeInsertTable (cs, [])).2) from rfl]
  rw [pass2_writes, pass1_writes]
  simp only [List.nil_append, specInsertWrites, specDeleteWrites]
  congr 1
  have hp : ∀ tid', (ts.insert_tables.foldl CommittedState.mergeInsertTable
      (cs, [])).1.hasTable tid' = (cs.hasTable tid' || (alookup tid' ts.insert_tables).isSome) :=
    fun tid' => pass1_hasTable ts.insert_tables cs [] tid'
  simp only [hp]
  simp [tableWillExist, CommittedState.hasTable]

/-! Concrete states used by the counterexamples and witnesses. -/

/-- A one-column `u32` row. -/
def rowU32 (n : Nat) : ProductValue := ⟨[.vU32 n]⟩

/-- Schema of a simple one-column user table. -/
def simpleSchema (table_id : Nat) (name : String) : TableSchema :=
  ⟨table_id, name, [⟨table_id, 0, "x", .tU32, false⟩], []⟩

/-- A simple one-column user table with the given rows and no indexes. -/
def simpleTable (table_id : Nat) (name : String) (rows : List ProductValue) : Table :=
  ⟨⟨[.tU32]⟩, simpleSchema table_id name, rows.map (fun r => (r.to_data_key, r)), []⟩

/-- A datastore with an empty committed state and an open transaction that
has performed no writes. -/
def c1EmptyState : Inner := ⟨⟨[]⟩, some ⟨[], []⟩, ⟨[]⟩⟩

/-- C1, counterexample: a mutating transaction that performed no writes is
committed to `Some` transaction with an empty write log, never to `None` —
refuting the claim's `None if no writes` clause at this concrete input. -/
theorem C1_counterexample_commit_of_empty_tx_is_some :
    c1EmptyState.tx_state = some ⟨[], []⟩ ∧
    (Inner.commit c1EmptyState).1 = Except.ok (some ⟨[]⟩) ∧
    (Inner.commit c1EmptyState).1 ≠ Except.ok none := by
  refine ⟨rfl, rfl, fun h => ?_⟩
  rw [show (Inner.commit c1EmptyState).1 = Except.ok (some ⟨[]⟩) from rfl] at h
  exact Option.noConfusion (Except.ok.inj h)

/-- C1 (amended): for every open mutating transaction, `commit` returns
`Ok(Some(Transaction))` — also when the transaction performed no writes, in
which case the log is empty — and the write log contains exactly the
transaction's merged writes: one `Insert` per shadow-inserted row followed
by one `Delete` per tombstone of every table existing after the insert
merge. -/
theorem C1_commit_write_log (s : Inner) (ts : TxState) (h : s.tx_state = some ts) :
    (Inner.commit s).1 =
      Except.ok (some ⟨specInsertWrites ts ++ specDeleteWrites s.committed_state ts⟩) := by
  unfold Inner.commit
  rw [h]
  rw [← merge_writes_spec s.committed_state ts]

/-- Transaction state of the C1 witness: one shadow-inserted row in table 5,
one tombstone in pre-existing table 4, one tombstone in absent table 9. -/
def c1WitnessTx : TxState :=
  ⟨[(5, simpleTable 5 "U" [rowU32 2])],
   [(4, [(rowU32 1).to_data_key]), (9, [(rowU32 9).to_data_key])]⟩

/-- Datastore of the C1 witness: committed table 4 holding row `(1,)`. -/
def c1WitnessState : Inner :=
  ⟨⟨[(4, simpleTable 4 "T" [rowU32 1])]⟩, some c1WitnessTx, ⟨[]⟩⟩

/-- Witness for C1: at the concrete state the commit log is exactly the
shadow insert of table 5 followed by the tombstone delete of table 4, the
tombstone of absent table 9 being dropped. -/
theorem C1_commit_write_log_witness :
    (Inner.commit c1WitnessState).1 =
      Except.ok (some ⟨[⟨.insertOp, 5, (rowU32 2).to_data_key⟩,
        ⟨.deleteOp, 4, (rowU32 1).to_data_key⟩]⟩) := by
  have h := C1_commit_write_log c1WitnessState c1WitnessTx rfl
  exact h.trans (by rfl)

/-- Datastore for the C10 run: committed table 4 exists and holds no rows;
a fresh transaction is open. -/
def c10S0 : Inner := ⟨⟨[(4, simpleTable 4 "T" [])]⟩, some ⟨[], []⟩, ⟨[]⟩⟩

/-- State after inserting row `(7,)` into table 4 inside the
transaction. -/
def c10S1 : Inner := (Inner.insert_row 10 4 (rowU32 7) c10S0).2

/-- State after deleting that row again before commit. -/
def c10S2 : Inner := (Inner.delete_row 4 (rowU32 7).to_data_key c10S1).2

/-- C10: inserting a row into a pre-existing committed table and deleting
it in the same transaction makes the commit write log carry a `Delete`
entry for the row's `RowId`, although the row was never present in any
committed state — `merge` logs every tombstone of an existing committed
table without checking that the row ever committed. -/
theorem C10_delete_of_never_committed_row_is_logged :
    (Inner.insert_row 10 4 (rowU32 7) c10S0).1 = Except.ok (rowU32 7) ∧
    (Inner.delete_row 4 (rowU32 7).to_data_key c10S1).1 = Except.ok true ∧
    alookup 4 c10S0.committed_state.tables = some (simpleTable 4 "T" []) ∧
    (simpleTable 4 "T" []).rows = [] ∧
    (Inner.commit c10S2).1 =
      Except.ok (some ⟨[⟨.deleteOp, 4, (rowU32 7).to_data_key⟩]⟩) :=
  ⟨rfl, rfl, rfl, rfl, rfl⟩

/-- Datastore for the C6 run: the state right after `create_table`
materialized fresh table 6 as a shadow insert-table inside the open
transaction (`create_table_internal`); nothing about table 6 exists in the
committed state.  The in-transaction `st_*` catalog rows that
`create_table`/`drop_table` would also touch are irrelevant to table 6's
merge behavior and are left out of the state. -/
def c6S0 : Inner := ⟨⟨[]⟩, some ⟨[(6, simpleTable 6 "New" [])], []⟩, ⟨[]⟩⟩

/-- State after inserting row `(7,)` into in-transaction table 6. -/
def c6S1 : Inner := (Inner.insert_row 10 6 (rowU32 7) c6S0).2

/-- State after deleting that row again before commit.  A subsequent
`drop_table(6)` leaves this table-6 overlay unchanged: it only removes the
committed entry (absent here) and catalog rows, never the shadow
insert-table or the tombstone set. -/
def c6S2 : Inner := (Inner.delete_row 6 (rowU32 7).to_data_key c6S1).2

/-- C6: the code fails to drop silently the tombstones of a table created
within the transaction.  Committing the create-insert-delete sequence on
fresh table 6 emits `Write{Delete, 6, rid}` for a row that never committed
(and materializes the empty table), while the spec — and the code's own
`NOTE` comment above the tombstone loop of `CommittedState::merge` — say
these delete operations should be skipped. -/
theorem C6_created_table_tombstone_not_dropped_silently :
    c6S0.committed_state.tables = [] ∧
    (Inner.insert_row 10 6 (rowU32 7) c6S0).1 = Except.ok (rowU32 7) ∧
    (Inner.delete_row 6 (rowU32 7).to_data_key c6S1).1 = Except.ok true ∧
    (Inner.commit c6S2).1 =
      Except.ok (some ⟨[⟨.deleteOp, 6, (rowU32 7).to_data_key⟩]⟩) ∧
    alookup 6 ((Inner.commit c6S2).2.committed_state.tables) =
      some (simpleTable 6 "New" []) :=
  ⟨rfl, rfl, rfl, rfl, rfl⟩

/-! C5: rollback and the committed state. -/

/-- Row type of `st_indexes`. -/
def stIndexesRowType : ProductType := ⟨[.tU32, .tU32, .tU32, .tString, .tBool]⟩

/-- Schema of `st_indexes` as bootstrapped (see the bootstrap test's
column and index assertions). -/
def stIndexesSchemaDef : TableSchema :=
  ⟨ST_INDEXES_ID, "st_indexes",
   [⟨ST_INDEXES_ID, 0, "index_id", .tU32, true⟩,
    ⟨ST_INDEXES_ID, 1, "table_id", .tU32, false⟩,
    ⟨ST_INDEXES_ID, 2, "col_id", .tU32, false⟩,
    ⟨ST_INDEXES_ID, 3, "index_name", .tString, false⟩,
    ⟨ST_INDEXES_ID, 4, "is_unique", .tBool, false⟩],
   [⟨1, ST_INDEXES_ID, 0, "index_id_idx", true⟩]⟩

/-- The `st_indexes` row describing index 7 (unique, on column 0 of user
table 4). -/
def idx7Row : ProductValue := (StIndexRow.mk 7 4 0 "T_x_idx" true).toProductValue

/-- Committed `st_indexes` table holding the row of index 7, with its own
committed unique index on `index_id`. -/
def stIndexesTable : Table :=
  ⟨stIndexesRowType, stIndexesSchemaDef,
   [(idx7Row.to_data_key, idx7Row)],
   [(0, ⟨1, ST_INDEXES_ID, 0, "index_id_idx", true, [(.vU32 7, idx7Row.to_data_key)]⟩)]⟩

/-- Committed user table 4 with one row and the live unique index 7 on
column 0. -/
def c5UserTable : Table :=
  ⟨⟨[.tU32]⟩,
   ⟨4, "T", [⟨4, 0, "x", .tU32, false⟩], [⟨7, 4, 0, "T_x_idx", true⟩]⟩,
   [((rowU32 1).to_data_key, rowU32 1)],
   [(0, ⟨7, 4, 0, "T_x_idx", true, [(.vU32 1, (rowU32 1).to_data_key)]⟩)]⟩

/-- Datastore for the C5 run: committed `st_indexes` and user table 4, a
fresh open transaction, no sequences. -/
def c5S0 : Inner :=
  ⟨⟨[(ST_INDEXES_ID, stIndexesTable), (4, c5UserTable)]⟩, some ⟨[], []⟩, ⟨[]⟩⟩

/-- C5, counterexample: a transaction consisting solely of `drop_index(7)`
— ordinary DDL, no `drop_table` — succeeds, and rolling it back leaves the
Committed State different from the pre-begin snapshot: `drop_index_internal`
removed index 7 from committed table 4 in place, and rollback does not
restore it.  The claim's `sole exception` clause is therefore false. -/
theorem C5_counterexample_drop_index_survives_rollback :
    (Inner.drop_index 7 c5S0).1 = Except.ok () ∧
    alookup 4 (((Inner.drop_index 7 c5S0).2.rollback).committed_state.tables) =
      some ⟨⟨[.tU32]⟩, ⟨4, "T", [⟨4, 0, "x", .tU32, false⟩], []⟩,
        [((rowU32 1).to_data_key, rowU32 1)], []⟩ ∧
    ((Inner.drop_index 7 c5S0).2.rollback).committed_state ≠ c5S0.committed_state := by
  refine ⟨rfl, rfl, fun h => ?_⟩
  have h4 : (some (⟨⟨[.tU32]⟩, ⟨4, "T", [⟨4, 0, "x", .tU32, false⟩], []⟩,
      [((rowU32 1).to_data_key, rowU32 1)], []⟩ : Table)) = some c5UserTable := by
    calc (some (⟨⟨[.tU32]⟩, ⟨4, "T", [⟨4, 0, "x", .tU32, false⟩], []⟩,
          [((rowU32 1).to_data_key, rowU32 1)], []⟩ : Table))
        = alookup 4 (((Inner.drop_index 7 c5S0).2.rollback).committed_state.tables) := rfl
      _ = alookup 4 c5S0.committed_state.tables := by rw [h]
      _ = some c5UserTable := rfl
  have hidx := congrArg (fun t => Table.indexes t) (Option.some.inj h4)
  simp only [c5UserTable] at hidx
  exact List.noConfusion hidx

/-- The `IndexDef` description passed to `create_index`. -/
structure IndexDef where
  table_id : Nat
  col_id : Nat
  name : String
  is_unique : Bool
deriving DecidableEq, Repr

/-- The `SequenceDef` description passed to `create_sequence`. -/
structure SequenceDef where
  sequence_name : String
  table_id : Nat
  col_id : Nat
  increment : Int
  start : Option Int
  min_value : Option Int
  max_value : Option Int
deriving DecidableEq, Repr

/-- One column of a `TableDef` (`ColumnDef`). -/
structure ColumnDef where
  col_name : String
  col_type : AlgebraicType
  is_autoinc : Bool
deriving DecidableEq, Repr

/-- The `TableDef` description passed to `create_table`. -/
structure TableDef where
  table_name : String
  columns : List ColumnDef
  indexes : List IndexDef
deriving DecidableEq, Repr

/-- `TableDef::get_row_type`: the product of the column types. -/
def TableDef.get_row_type (td : TableDef) : ProductType :=
  ⟨td.columns.map (·.col_type)⟩

/-- `i128::MAX`, the default `max_value` of a created sequence. -/
def I128_MAX : Int := 2 ^ 127 - 1

/-- Conversion `SequenceSchema::from(&StSequenceRow)` (field for field). -/
def StSequenceRow.toSchema (r : StSequenceRow) : SequenceSchema :=
  ⟨r.sequence_id, r.sequence_name, r.table_id, r.col_id, r.increment, r.start,
   r.min_value, r.max_value, r.allocated⟩

/-- The `Inner::create_table_internal` step: materialize the shadow table
with no rows and no indexes (the `unwrap` on the transaction is `panicked`). -/
def Inner.create_table_internal (table_id : Nat) (row_type : ProductType)
    (schema : TableSchema) : M Unit := fun s =>
  match s.tx_state with
  | none => (.error .panicked, s)
  | some ts =>
      let ts2 : TxState := { ts with
        insert_tables := ainsert table_id ⟨row_type, schema, [], []⟩ ts.insert_tables }
      (.ok (), { s with tx_state := some ts2 })

/-- The index-attachment tail of `create_index_internal`: build the new
index over the shadow table's rows and — per the code's NOTE — also over
the already committed table's rows, append the `IndexSchema` to the shadow
schema and store the index under its column. -/
def Table.attach_new_index (t : Table) (index_id : Nat) (index : IndexDef)
    (committed : Option Table) : Table :=
  let idx1 := (BTreeIndex.new index_id index.table_id index.col_id index.name
    index.is_unique).build_from_rows t.rows
  let idx2 := match committed with
              | some ct => idx1.build_from_rows ct.rows
              | none => idx1
  { t with
    schema := { t.schema with indexes := t.schema.indexes ++
      [⟨index_id, index.table_id, index.col_id, index.name, index.is_unique⟩] }
    indexes := ainsert index.col_id idx2 t.indexes }

/-- The `Inner::create_index_internal` step: materialize the shadow
insert-table when absent (from the reconstructed row type and schema), then
attach the new index to it. -/
def Inner.create_index_internal (index_id : Nat) (index : IndexDef) : M Unit := fun s =>
  match s.tx_state with
  | none => (.error .panicked, s)
  | some ts =>
      match alookup index.table_id ts.insert_tables with
      | some _ =>
          let ts2 : TxState := { ts with
            insert_tables := aupdate index.table_id
              (fun t => t.attach_new_index index_id index
                (alookup index.table_id s.committed_state.tables))
              ts.insert_tables }
          (.ok (), { s with tx_state := some ts2 })
      | none =>
          match s.row_type_for_table index.table_id with
          | .error e => (.error e, s)
          | .ok rt =>
              match s.schema_for_table index.table_id with
              | .error e => (.error e, s)
              | .ok sch =>
                  let ts2 : TxState := { ts with
                    insert_tables := ainsert index.table_id
                      ((Table.mk rt sch [] []).attach_new_index index_id index
                        (alookup index.table_id s.committed_state.tables))
                      ts.insert_tables }
                  (.ok (), { s with tx_state := some ts2 })

/-- The `Inner::create_index` operation: insert the `st_indexes` row (the
index id is auto-generated by the insert pipeline), check the table exists,
then attach the live index in the transaction. -/
def Inner.create_index (fuel : Nat) (index : IndexDef) : M Nat := fun s =>
  match Inner.insert_row fuel ST_INDEXES_ID
      (StIndexRow.toProductValue
        ⟨0, index.table_id, index.col_id, index.name, index.is_unique⟩) s with
  | (.error e, s1) => (.error e, s1)
  | (.ok resRow, s1) =>
      match StIndexRow.tryFrom resRow with
      | none => (.error .decodeError, s1)
      | some ir =>
          if ¬s1.table_exists index.table_id then
            (.error (.tableIdNotFound index.table_id), s1)
          else
            match Inner.create_index_internal ir.index_id index s1 with
            | (.error e, s2) => (.error e, s2)
            | (.ok _, s2) => (.ok ir.index_id, s2)

/-- The `Inner::create_sequence` operation: insert the `st_sequences` row
(defaults `start 1`, `min_value 1`, `max_value i128::MAX`, `allocated 0`),
decode the auto-generated id and register the live counter. -/
def Inner.create_sequence (fuel : Nat) (seq : SequenceDef) : M Nat := fun s =>
  match Inner.insert_row fuel ST_SEQUENCES_ID
      (StSequenceRow.toProductValue
        ⟨0, seq.sequence_name, seq.table_id, seq.col_id, seq.increment,
         seq.start.getD 1, seq.min_value.getD 1, seq.max_value.getD I128_MAX, 0⟩) s with
  | (.error e, s1) => (.error e, s1)
  | (.ok result, s1) =>
      match StSequenceRow.tryFrom result with
      | none => (.error .decodeError, s1)
      | some sr =>
          (.ok sr.sequence_id,
           s1.putSequence sr.sequence_id (Sequence.new sr.toSchema))

/-- Removal of a live sequence counter (`sequences.remove`). -/
def Inner.removeSequence (s : Inner) (seq_id : Nat) : Inner :=
  { s with sequence_state := ⟨aerase seq_id s.sequence_state.sequences⟩ }

/-- The `Inner::drop_sequence` operation: find the `st_sequences` row by
sequence id (`.last().unwrap()` is `panicked`), tombstone it, drop the live
counter. -/
def Inner.drop_sequence (seq_id : Nat) : M Unit := fun s =>
  match s.seekList ST_SEQUENCES_ID 0 (.vU32 seq_id) with
  | .error e => (.error e, s)
  | .ok rows =>
      match rows.getLast? with
      | none => (.error .panicked, s)
      | some old_seq_row =>
          let p := s.delete_row_internal ST_SEQUENCES_ID old_seq_row.to_data_key
          (.ok (), p.2.removeSequence seq_id)

/-- The `Inner::rename_table` operation: find the `st_tables` row (the
`assert!` on at most one row is `panicked`, a missing row `IdNotFound`),
delete it and insert the renamed row through the ordinary pipeline. -/
def Inner.rename_table (fuel : Nat) (table_id : Nat) (new_name : String) : M Unit :=
  fun s =>
  match s.seekList ST_TABLES_ID 0 (.vU32 table_id) with
  | .error e => (.error e, s)
  | .ok rows =>
      if rows.length > 1 then (.error .panicked, s)
      else
        match rows.head? with
        | none => (.error (.tableIdNotFound table_id), s)
        | some row =>
            match StTableRow.tryFrom row with
            | none => (.error .decodeError, s)
            | some el =>
                match Inner.insert_row fuel ST_TABLES_ID
                    (StTableRow.toProductValue { el with table_name := new_name })
                    (s.delete_row_internal ST_TABLES_ID row.to_data_key).2 with
                | (.error e, s2) => (.error e, s2)
                | (.ok _, s2) => (.ok (), s2)

/-- The column loop of `create_table`: insert one `st_columns` row per
column (ids from the running position), creating the backing sequence for
each auto-increment column. -/
def Inner.createColumns (fuel : Nat) (table_id : Nat) (table_name : String) :
    Nat → List ColumnDef → M Unit
  | _, [] => fun s => (.ok (), s)
  | i, col :: rest => fun s =>
      match Inner.insert_row fuel ST_COLUMNS_ID
          (StColumnRow.toProductValue
            ⟨table_id, i, col.col_name, col.col_type, col.is_autoinc⟩) s with
      | (.error e, s1) => (.error e, s1)
      | (.ok _, s1) =>
          if col.is_autoinc then
            match Inner.create_sequence fuel
                ⟨table_name ++ "_" ++ col.col_name ++ "_seq", table_id, i, 1,
                 some 1, some 1, none⟩ s1 with
            | (.error e, s2) => (.error e, s2)
            | (.ok _, s2) => Inner.createColumns fuel table_id table_name (i + 1) rest s2
          else Inner.createColumns fuel table_id table_name (i + 1) rest s1

/-- The index loop of `create_table`: create each declared index, its
`table_id` overridden with the created table's id. -/
def Inner.createIndexes (fuel table_id : Nat) : List IndexDef → M Unit
  | [] => fun s => (.ok (), s)
  | idx :: rest => fun s =>
      match Inner.create_index fuel { idx with table_id := table_id } s with
      | (.error e, s1) => (.error e, s1)
      | (.ok _, s1) => Inner.createIndexes fuel table_id rest s1

/-- The `Inner::create_table` operation: insert the `st_tables` row (the
table id is auto-generated), insert the `st_columns` rows and auto-inc
sequences, reconstruct the schema, materialize the shadow table, then
create the declared indexes. -/
def Inner.create_table (fuel : Nat) (td : TableDef) : M Nat := fun s =>
  match Inner.insert_row fuel ST_TABLES_ID
      (StTableRow.toProductValue ⟨0, td.table_name⟩) s with
  | (.error e, s1) => (.error e, s1)
  | (.ok resRow, s1) =>
      match StTableRow.tryFrom resRow with
      | none => (.error .decodeError, s1)
      | some tr =>
          match Inner.createColumns fuel tr.table_id td.table_name 0 td.columns s1 with
          | (.error e, s2) => (.error e, s2)
          | (.ok _, s2) =>
              match s2.schema_for_table tr.table_id with
              | .error e => (.error e, s2)
              | .ok schema =>
                  match Inner.create_table_internal tr.table_id td.get_row_type
                      schema s2 with
                  | (.error e, s3) => (.error e, s3)
                  | (.ok _, s3) =>
                      match Inner.createIndexes fuel tr.table_id td.indexes s3 with
                      | (.error e, s4) => (.error e, s4)
                      | (.ok _, s4) => (.ok tr.table_id, s4)

/-- The DML and DDL operations of the transactional API the amended C5
quantifies over: row insertion, row deletion, bulk deletion, sequence
allocation, table creation, index creation, sequence creation, table
renaming and sequence removal — every mutating operation except
`drop_table` and `drop_index`, the two that mutate Committed State in
place. -/
inductive TxOp where
  | dIns (fuel table_id : Nat) (row : ProductValue)
  | dDel (table_id : Nat) (row_id : RowId)
  | dDelRows (table_id : Nat) (rel : List ProductValue)
  | dSeq (fuel seq_id : Nat)
  | dCreateTable (fuel : Nat) (td : TableDef)
  | dCreateIndex (fuel : Nat) (idx : IndexDef)
  | dCreateSeq (fuel : Nat) (sd : SequenceDef)
  | dRename (fuel table_id : Nat) (new_name : String)
  | dDropSeq (seq_id : Nat)

/-- Run one operation for its state effect (results and errors are
irrelevant to the rollback claim; a failed operation keeps the writes it
made, as in the code). -/
def runTxOp (op : TxOp) (s : Inner) : Inner :=
  match op with
  | .dIns fuel tid row => (Inner.insert_row fuel tid row s).2
  | .dDel tid rid => (Inner.delete_row tid rid s).2
  | .dDelRows tid rel => (Inner.delete_rows_in tid rel s).2
  | .dSeq fuel q => (Inner.get_next_sequence_value fuel q s).2
  | .dCreateTable fuel td => (Inner.create_table fuel td s).2
  | .dCreateIndex fuel idx => (Inner.create_index fuel idx s).2
  | .dCreateSeq fuel sd => (Inner.create_sequence fuel sd s).2
  | .dRename fuel tid name => (Inner.rename_table fuel tid name s).2
  | .dDropSeq q => (Inner.drop_sequence q s).2

/-- Run a list of operations. -/
def runTxOps (ops : List TxOp) (s : Inner) : Inner :=
  ops.foldl (fun s op => runTxOp op s) s

theorem delete_row_internal_committed (s : Inner) (tid : Nat) (rid : RowId) :
    (s.delete_row_internal tid rid).2.committed_state = s.committed_state := by
  unfold Inner.delete_row_internal
  by_cases h : s.contains_row tid rid
  · cases s.tx_state <;> simp [h]
  · simp [h]

theorem delete_rows_fold_committed (rel : List ProductValue) (tid : Nat) (a : Nat × Inner) :
    (rel.foldl
      (fun (a : Nat × Inner) (tuple : ProductValue) =>
        let q := a.2.delete_row_internal tid tuple.to_data_key
        (if q.1 then a.1 + 1 else a.1, q.2))
      a).2.committed_state = a.2.committed_state := by
  induction rel generalizing a with
  | nil => rfl
  | cons t rest ih =>
      rw [List.foldl_cons]
      rw [ih]
      simp [delete_row_internal_committed]

theorem insert_row_internal_committed (tid : Nat) (row : ProductValue) (s : Inner) :
    (Inner.insert_row_internal tid row s).2.committed_state = s.committed_state := by
  obtain ⟨cs, otx, seqs⟩ := s
  unfold Inner.insert_row_internal
  cases otx with
  | none => rfl
  | some ts0 =>
      simp only
      cases h1 : ts0.ensure_insert_table cs tid with
      | error e => simp [h1]
      | ok ts =>
          simp only [h1]
          cases h2 : alookup tid ts.insert_tables with
          | none => simp [h2]
          | some it =>
              simp only [h2]
              cases h3 : it.indexes.find? (fun p => p.2.violates_unique_constraint row) with
              | some p => simp [h3]
              | none =>
                  simp only [h3]
                  cases h4 : committedUniqueCheck cs ts tid row with
                  | some e => simp [h4]
                  | none =>
                      simp only [h4]
                      by_cases h5 : it.row_type.elements.length ≠ row.elements.length <;>
                        simp [h5]

theorem findMatchingSequence_committed (gnsv : Nat → M Int)
    (hg : ∀ q s, ((gnsv q) s).2.committed_state = s.committed_state)
    (seqRows : List ProductValue) (col : ColumnSchema) (tname : String)
    (row : ProductValue) (s : Inner) :
    (Inner.findMatchingSequence gnsv seqRows col tname row s).2.committed_state =
      s.committed_state := by
  induction seqRows generalizing row s with
  | nil => rfl
  | cons r rest ih =>
      unfold Inner.findMatchingSequence
      rcases htf : StSequenceRow.tryFrom r with _ | sr
      · simp [htf]
      · simp only [htf]
        by_cases hcol : sr.col_id ≠ col.col_id
        · rw [if_pos hcol]
          exact ih row s
        · rw [if_neg hcol]
          rcases hq : gnsv sr.sequence_id s with ⟨res, s1⟩
          have h1 : s1.committed_state = s.committed_state := by
            have := hg sr.sequence_id s
            rw [hq] at this
            exact this
          cases res with
          | error e => simp [hq, h1]
          | ok v =>
              rcases hv : sequence_value_to_algebraic_value tname col.col_name col.col_type v
                  with e2 | av <;>
                simp [hq, hv, h1]

theorem substituteAutoinc_committed (gnsv : Nat → M Int)
    (hg : ∀ q s, ((gnsv q) s).2.committed_state = s.committed_state)
    (cols : List ColumnSchema) (tname : String) (tid : Nat)
    (row : ProductValue) (s : Inner) :
    (Inner.substituteAutoinc gnsv cols tname tid row s).2.committed_state =
      s.committed_state := by
  induction cols generalizing row s with
  | nil => rfl
  | cons col rest ih =>
      unfold Inner.substituteAutoinc
      by_cases hc : (col.is_autoinc && can_replace_with_sequence (row.field col.col_id)) = true
      · rw [if_pos hc]
        rcases hsk : s.seekList ST_SEQUENCES_ID 2 (.vU32 tid) with e | seqRows
        · simp [hsk]
        · simp only [hsk]
          rcases hf : Inner.findMatchingSequence gnsv seqRows col tname row s with ⟨res, s1⟩
          have h1 : s1.committed_state = s.committed_state := by
            have := findMatchingSequence_committed gnsv hg seqRows col tname row s
            rw [hf] at this
            exact this
          cases res with
          | error e => simp [hf, h1]
          | ok row1 => simp [hf, ih row1 s1, h1]
      · rw [if_neg hc]
        exact ih row s

theorem insert_rowAux_committed (gnsv : Nat → M Int)
    (hg : ∀ q s, ((gnsv q) s).2.committed_state = s.committed_state)
    (tid : Nat) (row : ProductValue) (s : Inner) :
    (Inner.insert_rowAux gnsv tid row s).2.committed_state = s.committed_state := by
  unfold Inner.insert_rowAux
  rcases hsch : s.schema_for_table tid with e | schema
  · simp [hsch]
  · simp only [hsch]
    rcases hf : Inner.substituteAutoinc gnsv schema.columns schema.table_name tid row s
      with ⟨res, s1⟩
    have h1 : s1.committed_state = s.committed_state := by
      have := substituteAutoinc_committed gnsv hg schema.columns schema.table_name tid row s
      rw [hf] at this
      exact this
    cases res with
    | error e => simp [hf, h1]
    | ok row1 =>
        rcases hi : Inner.insert_row_internal tid row1 s1 with ⟨res2, s2⟩
        have h2 : s2.committed_state = s1.committed_state := by
          have := insert_row_internal_committed tid row1 s1
          rw [hi] at this
          exact this
        cases res2 with
        | error e => simp [hf, hi, h2, h1]
        | ok u => simp [hf, hi, h2, h1]

theorem seqRetry_committed (gnsv : Nat → M Int)
    (hg : ∀ q s, ((gnsv q) s).2.committed_state = s.committed_state)
    (seq_id : Nat) (newRow : ProductValue) (s : Inner) :
    (Inner.seqRetry gnsv seq_id newRow s).2.committed_state = s.committed_state := by
  unfold Inner.seqRetry
  rcases hi : Inner.insert_rowAux gnsv ST_SEQUENCES_ID newRow s with ⟨res, s2⟩
  have h2 : s2.committed_state = s.committed_state := by
    have := insert_rowAux_committed gnsv hg ST_SEQUENCES_ID newRow s
    rw [hi] at this
    exact this
  cases res with
  | error e => simp [hi, h2]
  | ok u =>
      rcases hl : alookup seq_id s2.sequence_state.sequences with _ | seq2
      · simp [hi, hl, h2]
      · rcases hgen : seq2.gen_next_value with _ | r <;>
          simp [hi, hl, hgen, h2, Inner.putSequence]

theorem get_next_sequence_value_committed (fuel : Nat) :
    ∀ (q : Nat) (s : Inner),
      ((Inner.get_next_sequence_value fuel q) s).2.committed_state = s.committed_state := by
  induction fuel with
  | zero => intro q s; rfl
  | succ fuel ih =>
      intro q s
      unfold Inner.get_next_sequence_value
      rcases hl : alookup q s.sequence_state.sequences with _ | seq
      · simp [hl]
      · simp only [hl]
        rcases hgen : seq.gen_next_value with _ | p
        · simp only [hgen]
          rcases hsk : s.seekList ST_SEQUENCES_ID 0 (.vU32 q) with e | rows
          · simp [hsk]
          · simp only [hsk]
            rcases hlast : rows.getLast? with _ | old_seq_row
            · simp [hlast]
            · simp only [hlast]
              rcases htf : StSequenceRow.tryFrom old_seq_row with _ | sr0
              · simp [htf]
              · simp only [htf]
                rw [seqRetry_committed (Inner.get_next_sequence_value fuel) ih]
                rw [delete_row_internal_committed]
                rfl
        · simp [hgen, Inner.putSequence]

theorem insert_row_committed (fuel tid : Nat) (row : ProductValue) (s : Inner) :
    (Inner.insert_row fuel tid row s).2.committed_state = s.committed_state :=
  insert_rowAux_committed _ (get_next_sequence_value_committed fuel) tid row s

theorem create_table_internal_committed (tid : Nat) (rt : ProductType)
    (sch : TableSchema) (s : Inner) :
    (Inner.create_table_internal tid rt sch s).2.committed_state =
      s.committed_state := by
  unfold Inner.create_table_internal
  rcases ho : s.tx_state with _ | ts <;> simp only [ho]

theorem create_index_internal_committed (iid : Nat) (idx : IndexDef) (s : Inner) :
    (Inner.create_index_internal iid idx s).2.committed_state = s.committed_state := by
  unfold Inner.create_index_internal
  rcases ho : s.tx_state with _ | ts
  · simp only [ho]
  · simp only [ho]
    rcases hlk : alookup idx.table_id ts.insert_tables with _ | it
    · simp only [hlk]
      rcases hrt : s.row_type_for_table idx.table_id with e | rt
      · simp only [hrt]
      · simp only [hrt]
        rcases hsch : s.schema_for_table idx.table_id with e | sch <;> simp only [hsch]
    · simp only [hlk]

theorem create_index_committed (fuel : Nat) (idx : IndexDef) (s : Inner) :
    (Inner.create_index fuel idx s).2.committed_state = s.committed_state := by
  unfold Inner.create_index
  rcases hi : Inner.insert_row fuel ST_INDEXES_ID
      (StIndexRow.toProductValue
        ⟨0, idx.table_id, idx.col_id, idx.name, idx.is_unique⟩) s with ⟨res, s1⟩
  have h1 : s1.committed_state = s.committed_state := by
    have h2 := insert_row_committed fuel ST_INDEXES_ID
      (StIndexRow.toProductValue
        ⟨0, idx.table_id, idx.col_id, idx.name, idx.is_unique⟩) s
    rw [hi] at h2
    exact h2
  cases res with
  | error e => simp [hi, h1]
  | ok resRow =>
      simp only [hi]
      rcases htf : StIndexRow.tryFrom resRow with _ | ir
      · simp [htf, h1]
      · simp only [htf]
        by_cases hex : ¬s1.table_exists idx.table_id = true
        · rw [if_pos hex]
          exact h1
        · rw [if_neg hex]
          rcases hci : Inner.create_index_internal ir.index_id idx s1 with ⟨res2, s2⟩
          have h2 : s2.committed_state = s1.committed_state := by
            have h3 := create_index_internal_committed ir.index_id idx s1
            rw [hci] at h3
            exact h3
          cases res2 with
          | error e => simp [hci, h2, h1]
          | ok u => simp [hci, h2, h1]

theorem create_sequence_committed (fuel : Nat) (sd : SequenceDef) (s : Inner) :
    (Inner.create_sequence fuel sd s).2.committed_state = s.committed_state := by
  unfold Inner.create_sequence
  rcases hi : Inner.insert_row fuel ST_SEQUENCES_ID
      (StSequenceRow.toProductValue
        ⟨0, sd.sequence_name, sd.table_id, sd.col_id, sd.increment,
         sd.start.getD 1, sd.min_value.getD 1, sd.max_value.getD I128_MAX, 0⟩) s
    with ⟨res, s1⟩
  have h1 : s1.committed_state = s.committed_state := by
    have h2 := insert_row_committed fuel ST_SEQUENCES_ID
      (StSequenceRow.toProductValue
        ⟨0, sd.sequence_name, sd.table_id, sd.col_id, sd.increment,
         sd.start.getD 1, sd.min_value.getD 1, sd.max_value.getD I128_MAX, 0⟩) s
    rw [hi] at h2
    exact h2
  cases res with
  | error e => simp [hi, h1]
  | ok result =>
      simp only [hi]
      rcases htf : StSequenceRow.tryFrom result with _ | sr <;>
        simp [htf, h1, Inner.putSequence]

theorem removeSequence_committed (s : Inner) (q : Nat) :
    (s.removeSequence q).committed_state = s.committed_state := rfl

theorem drop_sequence_committed (q : Nat) (s : Inner) :
    (Inner.drop_sequence q s).2.committed_state = s.committed_state := by
  unfold Inner.drop_sequence
  rcases hsk : s.seekList ST_SEQUENCES_ID 0 (.vU32 q) with e | rows
  · simp only [hsk]
  · simp only [hsk]
    rcases hlast : rows.getLast? with _ | old <;>
      simp [hlast, removeSequence_committed, delete_row_internal_committed]

theorem rename_table_committed (fuel tid : Nat) (name : String) (s : Inner) :
    (Inner.rename_table fuel tid name s).2.committed_state = s.committed_state := by
  unfold Inner.rename_table
  rcases hsk : s.seekList ST_TABLES_ID 0 (.vU32 tid) with e | rows
  · simp only [hsk]
  · simp only [hsk]
    by_cases hlen : rows.length > 1
    · rw [if_pos hlen]
    · rw [if_neg hlen]
      rcases hh : rows.head? with _ | row
      · simp only [hh]
      · simp only [hh]
        rcases htf : StTableRow.tryFrom row with _ | el
        · simp only [htf]
        · simp only [htf]
          rcases hi : Inner.insert_row fuel ST_TABLES_ID
              (StTableRow.toProductValue { el with table_name := name })
              (s.delete_row_internal ST_TABLES_ID row.to_data_key).2 with ⟨res, s2⟩
          have h1 : s2.committed_state = s.committed_state := by
            have h2 := insert_row_committed fuel ST_TABLES_ID
              (StTableRow.toProductValue { el with table_name := name })
              (s.delete_row_internal ST_TABLES_ID row.to_data_key).2
            rw [hi] at h2
            rw [h2, delete_row_internal_committed]
          cases res with
          | error e => simp [hi, h1]
          | ok u => simp [hi, h1]

theorem createColumns_committed (fuel tid : Nat) (tname : String)
    (cols : List ColumnDef) :
    ∀ (i : Nat) (s : Inner),
      (Inner.createColumns fuel tid tname i cols s).2.committed_state =
        s.committed_state := by
  induction cols with
  | nil => intro i s; rfl
  | cons col rest ih =>
      intro i s
      unfold Inner.createColumns
      rcases hi : Inner.insert_row fuel ST_COLUMNS_ID
          (StColumnRow.toProductValue
            ⟨tid, i, col.col_name, col.col_type, col.is_autoinc⟩) s with ⟨res, s1⟩
      have h1 : s1.committed_state = s.committed_state := by
        have h2 := insert_row_committed fuel ST_COLUMNS_ID
          (StColumnRow.toProductValue
            ⟨tid, i, col.col_name, col.col_type, col.is_autoinc⟩) s
        rw [hi] at h2
        exact h2
      cases res with
      | error e => simp [hi, h1]
      | ok u =>
          simp only [hi]
          by_cases hai : col.is_autoinc = true
          · rw [if_pos hai]
            rcases hc : Inner.create_sequence fuel
                ⟨tname ++ "_" ++ col.col_name ++ "_seq", tid, i, 1,
                 some 1, some 1, none⟩ s1 with ⟨res2, s2⟩
            have h2 : s2.committed_state = s1.committed_state := by
              have h3 := create_sequence_committed fuel
                ⟨tname ++ "_" ++ col.col_name ++ "_seq", tid, i, 1,
                 some 1, some 1, none⟩ s1
              rw [hc] at h3
              exact h3
            cases res2 with
            | error e => simp [hc, h2, h1]
            | ok u2 => simp [hc, ih (i + 1) s2, h2, h1]
          · rw [if_neg hai]
            simp [ih (i + 1) s1, h1]

theorem createIndexes_committed (fuel tid : Nat) (idxs : List IndexDef) :
    ∀ s : Inner,
      (Inner.createIndexes fuel tid idxs s).2.committed_state = s.committed_state := by
  induction idxs with
  | nil => intro s; rfl
  | cons idx rest ih =>
      intro s
      unfold Inner.createIndexes
      rcases hc : Inner.create_index fuel { idx with table_id := tid } s with ⟨res, s1⟩
      have h1 : s1.committed_state = s.committed_state := by
        have h2 := create_index_committed fuel { idx with table_id := tid } s
        rw [hc] at h2
        exact h2
      cases res with
      | error e => simp [hc, h1]
      | ok u => simp [hc, ih s1, h1]

theorem create_table_committed (fuel : Nat) (td : TableDef) (s : Inner) :
    (Inner.create_table fuel td s).2.committed_state = s.committed_state := by
  unfold Inner.create_table
  rcases hi : Inner.insert_row fuel ST_TABLES_ID
      (StTableRow.toProductValue ⟨0, td.table_name⟩) s with ⟨res, s1⟩
  have h1 : s1.committed_state = s.committed_state := by
    have h2 := insert_row_committed fuel ST_TABLES_ID
      (StTableRow.toProductValue ⟨0, td.table_name⟩) s
    rw [hi] at h2
    exact h2
  cases res with
  | error e => simp [hi, h1]
  | ok resRow =>
      simp only [hi]
      rcases htf : StTableRow.tryFrom resRow with _ | tr
      · simp [htf, h1]
      · simp only [htf]
        rcases hcc : Inner.createColumns fuel tr.table_id td.table_name 0 td.columns s1
          with ⟨res2, s2⟩
        have h2 : s2.committed_state = s1.committed_state := by
          have h3 := createColumns_committed fuel tr.table_id td.table_name
            td.columns 0 s1
          rw [hcc] at h3
          exact h3
        cases res2 with
        | error e => simp [hcc, h2, h1]
        | ok u =>
            simp only [hcc]
            rcases hsch : s2.schema_for_table tr.table_id with e | schema
            · simp [hsch, h2, h1]
            · simp only [hsch]
              rcases hct : Inner.create_table_internal tr.table_id td.get_row_type
                  schema s2 with ⟨res3, s3⟩
              have h3 : s3.committed_state = s2.committed_state := by
                have h4 := create_table_internal_committed tr.table_id td.get_row_type
                  schema s2
                rw [hct] at h4
                exact h4
              cases res3 with
              | error e => simp [hct, h3, h2, h1]
              | ok u2 =>
                  simp only [hct]
                  rcases hcx : Inner.createIndexes fuel tr.table_id td.indexes s3
                    with ⟨res4, s4⟩
                  have h4 : s4.committed_state = s3.committed_state := by
                    have h5 := createIndexes_committed fuel tr.table_id td.indexes s3
                    rw [hcx] at h5
                    exact h5
                  cases res4 with
                  | error e => simp [hcx, h4, h3, h2, h1]
                  | ok u3 => simp [hcx, h4, h3, h2, h1]

/-- C5 (amended): rollback after an arbitrary sequence of DML and DDL
operations — row inserts (with auto-increment substitution and sequence
refills), row deletes, bulk deletes, sequence allocation, `create_table`,
`create_index`, `create_sequence`, `rename_table` and `drop_sequence` —
leaves the Committed State equal to its pre-begin snapshot.  The exceptions
are exactly the two operations that mutate the Committed State in place:
`drop_table` (the known defect) and — as the counterexample shows, forcing
this amendment — `drop_index`. -/
theorem C5_rollback_preserves_committed_state (ops : List TxOp) (s : Inner) :
    ((runTxOps ops s).rollback).committed_state = s.committed_state := by
  suffices h : (runTxOps ops s).committed_state = s.committed_state by
    simpa [Inner.rollback] using h
  induction ops generalizing s with
  | nil => rfl
  | cons op rest ih =>
      rw [show runTxOps (op :: rest) s = runTxOps rest (runTxOp op s) from rfl, ih]
      cases op with
      | dIns fuel tid row => exact insert_row_committed fuel tid row s
      | dDel tid rid =>
          simp [runTxOp, Inner.delete_row, delete_row_internal_committed]
      | dDelRows tid rel =>
          simp only [runTxOp, Inner.delete_rows_in]
          exact delete_rows_fold_committed rel tid (0, s)
      | dSeq fuel q => exact get_next_sequence_value_committed fuel q s
      | dCreateTable fuel td => exact create_table_committed fuel td s
      | dCreateIndex fuel idx => exact create_index_committed fuel idx s
      | dCreateSeq fuel sd => exact create_sequence_committed fuel sd s
      | dRename fuel tid name => exact rename_table_committed fuel tid name s
      | dDropSeq q => exact drop_sequence_committed q s

/-! C2: scan versus `contains_row`. -/

theorem alookup_eq_none_iff {κ α : Type} [DecidableEq κ] (k : κ) (l : List (κ × α)) :
    alookup k l = none ↔ k ∉ l.map Prod.fst := by
  induction l with
  | nil => simp
  | cons hd tl ih =>
      obtain ⟨hk, hv⟩ := hd
      by_cases h : hk = k <;> simp [alookup, h, ih] <;> simp_all [eq_comm]

theorem alookup_isSome_iff_mem {κ α : Type} [DecidableEq κ] (k : κ) (l : List (κ × α)) :
    (alookup k l).isSome ↔ k ∈ l.map Prod.fst := by
  induction l with
  | nil => simp
  | cons hd tl ih =>
      obtain ⟨hk, hv⟩ := hd
      rw [alookup_cons, List.map_cons, List.mem_cons]
      by_cases h : hk = k
      · subst h
        simp
      · rw [if_neg h, ih]
        constructor
        · exact Or.inr
        · rintro (h1 | h1)
          · exact absurd h1.symm h
          · exact h1

/-- The committed rows of a table (empty when the table is absent). -/
def committedRowsOf (s : Inner) (table_id : Nat) : List (RowId × ProductValue) :=
  ((alookup table_id s.committed_state.tables).map (fun t => t.rows)).getD []

/-- The shadow-inserted rows of a table (empty when no shadow table
exists). -/
def shadowRowsOf (ts : TxState) (table_id : Nat) : List (RowId × ProductValue) :=
  ((alookup table_id ts.insert_tables).map (fun t => t.rows)).getD []

/-- Invariant 1 of the spec: every stored row's key is its content key. -/
def keyConsistent (l : List (RowId × ProductValue)) : Prop :=
  ∀ p ∈ l, p.1 = p.2.to_data_key

theorem shadow_get_eq (ts : TxState) (tid : Nat) (r : RowId) :
    ((alookup tid ts.insert_tables).bind (fun tbl => tbl.get_row r)) =
      alookup r (shadowRowsOf ts tid) := by
  unfold shadowRowsOf
  cases alookup tid ts.insert_tables with
  | none => rfl
  | some tbl => rfl

theorem get_row_op_eq (ts : TxState) (tid : Nat) (r : RowId) :
    ts.get_row_op tid r =
      (if ts.tombstoned tid r then .rDel
       else if (alookup r (shadowRowsOf ts tid)).isSome then .rIns else .rAbs) := by
  unfold TxState.get_row_op
  by_cases h : ts.tombstoned tid r
  · simp [h]
  · rw [if_neg (by simp [h]), if_neg (by simp [h])]
    unfold shadowRowsOf
    rcases hl : alookup tid ts.insert_tables with _ | tbl
    · simp [hl]
    · simp only [hl]
      rcases hg : tbl.get_row r with _ | row <;>
        simp [Table.get_row] at hg <;> simp [Table.get_row, hg]

theorem contains_row_eq (s : Inner) (ts : TxState) (tid : Nat) (r : RowId)
    (h : s.tx_state = some ts) :
    s.contains_row tid r =
      (if ts.tombstoned tid r then false
       else if (alookup r (shadowRowsOf ts tid)).isSome then true
       else (alookup r (committedRowsOf s tid)).isSome) := by
  obtain ⟨cs, otx, seqs⟩ := s
  have h' : otx = some ts := h
  subst h'
  unfold Inner.contains_row
  dsimp only
  rw [get_row_op_eq]
  rcases h1 : ts.tombstoned tid r with _ | _
  · rcases h2 : (alookup r (shadowRowsOf ts tid)).isSome with _ | _
    · simp only [h1, h2, Bool.false_eq_true, if_false]
      unfold committedRowsOf
      rcases hct : alookup tid cs.tables with _ | t
      · simp [hct]
      · simp [hct]
    · simp [h1, h2]
  · simp [h1]

theorem mem_filtered_assoc (l : List (RowId × ProductValue)) (P : RowId → Bool) (r : RowId)
    (hkc : keyConsistent l) :
    (∃ row, row ∈ (l.filter (fun p => P p.1)).map Prod.snd ∧ row.to_data_key = r) ↔
      ((alookup r l).isSome ∧ P r = true) := by
  have hstep : (∃ row, row ∈ (l.filter (fun p => P p.1)).map Prod.snd ∧
      row.to_data_key = r) ↔ ∃ p, p ∈ l ∧ P p.1 = true ∧ p.2.to_data_key = r := by
    constructor
    · rintro ⟨row, hrow, hkey⟩
      rcases List.mem_map.mp hrow with ⟨p, hpf, hsnd⟩
      rcases List.mem_filter.mp hpf with ⟨hpl, hPp⟩
      exact ⟨p, hpl, hPp, by rw [hsnd]; exact hkey⟩
    · rintro ⟨p, hpl, hPp, hkey⟩
      exact ⟨p.2, List.mem_map_of_mem Prod.snd (List.mem_filter.mpr ⟨hpl, hPp⟩), hkey⟩
  rw [hstep]
  constructor
  · rintro ⟨p, hpl, hPp, hkey⟩
    have h1 : p.1 = r := (hkc p hpl).trans hkey
    refine ⟨?_, ?_⟩
    · rw [alookup_isSome_iff_mem, ← h1]
      exact List.mem_map_of_mem Prod.fst hpl
    · rw [← h1]; exact hPp
  · rintro ⟨hsome, hPr⟩
    rw [alookup_isSome_iff_mem] at hsome
    rcases List.mem_map.mp hsome with ⟨p, hpl, hfst⟩
    refine ⟨p, hpl, ?_, ?_⟩
    · rw [hfst]; exact hPr
    · rw [← hkc p hpl, hfst]

theorem count_filtered_assoc (l : List (RowId × ProductValue)) (P : RowId → Bool) (r : RowId)
    (hkc : keyConsistent l) (hnd : (l.map Prod.fst).Nodup) :
    (((l.filter (fun p => P p.1)).map Prod.snd).filter
      (fun row => decide (row.to_data_key = r))).length =
      (if ((alookup r l).isSome && P r) then 1 else 0) := by
  induction l with
  | nil => simp
  | cons hd tl ih =>
      obtain ⟨k, v⟩ := hd
      have hk : k = v.to_data_key := hkc (k, v) (List.mem_cons_self _ _)
      have hkc' : keyConsistent tl := fun p hp => hkc p (List.mem_cons_of_mem _ hp)
      rw [List.map_cons, List.nodup_cons] at hnd
      obtain ⟨hnd1, hnd'⟩ := hnd
      rw [List.filter_cons]
      by_cases hP : P k = true
      · rw [if_pos (by simpa using hP)]
        rw [List.map_cons, List.filter_cons]
        by_cases hr : k = r
        · subst hr
          have hnone : alookup k tl = none := (alookup_eq_none_iff k tl).mpr hnd1
          rw [if_pos (by simp [← hk])]
          rw [List.length_cons, ih hkc' hnd']
          simp [alookup_cons, hnone, hP]
        · rw [if_neg (by simp [← hk]; exact hr)]
          rw [ih hkc' hnd']
          simp [alookup_cons, if_neg hr]
      · rw [if_neg (by simpa using hP)]
        rw [ih hkc' hnd']
        by_cases hr : k = r
        · subst hr
          have hnone : alookup k tl = none := (alookup_eq_none_iff k tl).mpr hnd1
          simp [alookup_cons, hnone, hP]
        · simp [alookup_cons, if_neg hr]

theorem scanRows_decomp (s : Inner) (ts : TxState) (tid : Nat) :
    s.scanRows ts tid =
      ((committedRowsOf s tid).filter
        (fun p => ts.get_row_op tid p.1 = RowOp.rAbs)).map Prod.snd
      ++ (shadowRowsOf ts tid).map Prod.snd := by
  unfold Inner.scanRows committedRowsOf shadowRowsOf
  rcases hct : alookup tid s.committed_state.tables with _ | ct
  · rcases hit : alookup tid ts.insert_tables with _ | it <;>
      simp [hct, hit, Table.scan_rows]
  · rcases hit : alookup tid ts.insert_tables with _ | it <;>
      simp [hct, hit, Table.scan_rows]

/-- C2: with the transaction open on an existing table — under the row-key
invariants (committed and shadow rows are keyed by their content key,
without duplicate keys, and a shadow-inserted row is never simultaneously
tombstoned) — `scan` yields first every committed row whose tx row-op is
`Absent`, then every shadow-inserted row; every live row is yielded exactly
once; and `contains_row(t, r)` holds iff `scan(t)` yields the row with id
`r`. -/
theorem C2_scan_yields_iff_contains_row (s : Inner) (ts : TxState) (tid : Nat)
    (h : s.tx_state = some ts)
    (hex : s.table_exists tid = true)
    (hkcC : keyConsistent (committedRowsOf s tid))
    (hkcS : keyConsistent (shadowRowsOf ts tid))
    (hndC : ((committedRowsOf s tid).map Prod.fst).Nodup)
    (hndS : ((shadowRowsOf ts tid).map Prod.fst).Nodup)
    (hdisj : ∀ r : RowId, (alookup r (shadowRowsOf ts tid)).isSome →
      ts.tombstoned tid r = false) :
    s.scanList tid = .ok
      (((committedRowsOf s tid).filter
          (fun p => ts.get_row_op tid p.1 = RowOp.rAbs)).map Prod.snd
        ++ (shadowRowsOf ts tid).map Prod.snd)
    ∧ (∀ r : RowId, s.contains_row tid r = true ↔
        ∃ row, row ∈ s.scanRows ts tid ∧ row.to_data_key = r)
    ∧ (∀ r : RowId, s.contains_row tid r = true →
        ((s.scanRows ts tid).filter (fun row => decide (row.to_data_key = r))).length = 1) := by
  have hL := scanRows_decomp s ts tid
  have hmem_split : ∀ r : RowId,
      (∃ row, row ∈ s.scanRows ts tid ∧ row.to_data_key = r) ↔
        (((alookup r (committedRowsOf s tid)).isSome ∧
            ts.get_row_op tid r = RowOp.rAbs) ∨
          (alookup r (shadowRowsOf ts tid)).isSome) := by
    intro r
    have hmemC := mem_filtered_assoc (committedRowsOf s tid)
      (fun k => decide (ts.get_row_op tid k = RowOp.rAbs)) r hkcC
    have hmemS := mem_filtered_assoc (shadowRowsOf ts tid) (fun _ => true) r hkcS
    rw [List.filter_true] at hmemS
    rw [hL]
    constructor
    · rintro ⟨row, hrow, hkey⟩
      rcases List.mem_append.mp hrow with hm | hm
      · have := hmemC.mp ⟨row, hm, hkey⟩
        exact Or.inl ⟨this.1, by simpa using this.2⟩
      · exact Or.inr (hmemS.mp ⟨row, hm, hkey⟩).1
    · rintro (⟨hch, hab⟩ | hsh)
      · rcases hmemC.mpr ⟨hch, by simpa using hab⟩ with ⟨row, hrow, hkey⟩
        exact ⟨row, List.mem_append_left _ hrow, hkey⟩
      · rcases hmemS.mpr ⟨hsh, rfl⟩ with ⟨row, hrow, hkey⟩
        exact ⟨row, List.mem_append_right _ hrow, hkey⟩
  refine ⟨?_, ?_, ?_⟩
  · unfold Inner.scanList
    rw [h]
    dsimp only
    rw [if_pos hex, hL]
  · intro r
    rw [contains_row_eq s ts tid r h, hmem_split r]
    rcases h1 : ts.tombstoned tid r with _ | _
    · rcases h2 : (alookup r (shadowRowsOf ts tid)).isSome with _ | _
      · simp [h1, h2, get_row_op_eq]
      · simp [h1, h2, get_row_op_eq]
    · rcases h2 : (alookup r (shadowRowsOf ts tid)).isSome with _ | _
      · simp [h1, h2, get_row_op_eq]
      · have := hdisj r (by rw [h2])
        rw [this] at h1
        exact Bool.noConfusion h1
  · intro r hcr
    rw [contains_row_eq s ts tid r h] at hcr
    rw [hL, List.filter_append, List.length_append]
    have hcntC := count_filtered_assoc (committedRowsOf s tid)
      (fun k => decide (ts.get_row_op tid k = RowOp.rAbs)) r hkcC hndC
    have hcntS := count_filtered_assoc (shadowRowsOf ts tid) (fun _ => true) r hkcS hndS
    rw [List.filter_true] at hcntS
    rw [hcntC, hcntS]
    rcases h1 : ts.tombstoned tid r with _ | _
    · rcases h2 : (alookup r (shadowRowsOf ts tid)).isSome with _ | _
      · rw [h1, h2] at hcr
        simp only [Bool.false_eq_true, if_false] at hcr
        simp [h1, h2, hcr, get_row_op_eq]
      · simp [h1, h2, get_row_op_eq]
    · rw [h1] at hcr
      simp at hcr

/-- Transaction state of the C2 witness: shadow row `(2,)` in table 4 and a
tombstone on committed row `(1,)`. -/
def c2Ts : TxState :=
  ⟨[(4, simpleTable 4 "T" [rowU32 2])], [(4, [(rowU32 1).to_data_key])]⟩

/-- Datastore of the C2 witness: committed table 4 with rows `(1,)` and
`(3,)`, transaction `c2Ts` open. -/
def c2S : Inner := ⟨⟨[(4, simpleTable 4 "T" [rowU32 1, rowU32 3])]⟩, some c2Ts, ⟨[]⟩⟩

/-- Witness for C2: at the concrete state, scan yields the non-tombstoned
committed row then the shadow row; the shadow row both satisfies
`contains_row` and is yielded exactly once. -/
theorem C2_scan_yields_iff_contains_row_witness :
    Inner.scanList c2S 4 = Except.ok [rowU32 3, rowU32 2] ∧
    Inner.contains_row c2S 4 (rowU32 2).to_data_key = true ∧
    ((Inner.scanRows c2S c2Ts 4).filter
      (fun row => decide (row.to_data_key = (rowU32 2).to_data_key))).length = 1 := by
  have hdisj : ∀ r : RowId, (alookup r (shadowRowsOf c2Ts 4)).isSome →
      c2Ts.tombstoned 4 r = false := by
    intro r hr
    rw [show shadowRowsOf c2Ts 4 = [((rowU32 2).to_data_key, rowU32 2)] from rfl] at hr
    by_cases hk : (rowU32 2).to_data_key = r
    · rw [← hk]; rfl
    · rw [alookup_cons, if_neg hk] at hr
      simp at hr
  have H := C2_scan_yields_iff_contains_row c2S c2Ts 4 rfl rfl
    (by intro p hp; fin_cases hp <;> rfl)
    (by intro p hp; fin_cases hp <;> rfl)
    (by decide) (by decide) hdisj
  refine ⟨?_, ?_, ?_⟩
  · rw [H.1]; rfl
  · exact (H.2.1 (rowU32 2).to_data_key).mpr ⟨rowU32 2, by decide, rfl⟩
  · exact H.2.2 (rowU32 2).to_data_key (by decide)

/-! C3: the unique-constraint pre-checks of `insert_row_internal`. -/

theorem committedUniqueCheck_isUnique (cs : CommittedState) (ts : TxState) (tid : Nat)
    (row : ProductValue) (e : Err)
    (h : committedUniqueCheck cs ts tid row = some e) : e.isUniqueViolation = true := by
  unfold committedUniqueCheck at h
  rcases hct : alookup tid cs.tables with _ | ct
  · rw [hct] at h; exact Option.noConfusion h
  · rw [hct] at h
    dsimp only at h
    rcases List.exists_of_findSome?_eq_some h with ⟨p, hp, hfp⟩
    rcases hviol : p.2.get_rows_that_violate_unique_constraint row with _ | rids
    · rw [hviol] at hfp; exact Option.noConfusion hfp
    · rw [hviol] at hfp
      dsimp only at hfp
      rcases List.exists_of_findSome?_eq_some hfp with ⟨rid, hrid, hgr⟩
      rcases hdt : alookup tid ts.delete_tables with _ | dset
      · rw [hdt] at hgr
        dsimp only at hgr
        rw [← Option.some.inj hgr]
        rfl
      · rw [hdt] at hgr
        dsimp only at hgr
        by_cases hin : rid ∈ dset
        · rw [if_pos hin] at hgr; exact Option.noConfusion hgr
        · rw [if_neg hin] at hgr
          rw [← Option.some.inj hgr]
          rfl

/-- C3: inside `insert_row_internal` on a table whose shadow insert-table
exists, (1) a shadow-layer unique violation aborts with
`UniqueConstraintViolation`; (2) with a clean shadow layer, a committed
violator that is not tombstoned aborts with `UniqueConstraintViolation`;
(3) with a clean shadow layer and every committed violator tombstoned, the
insert is not aborted by a unique violation. -/
theorem C3_unique_checks (s : Inner) (ts : TxState) (tid : Nat) (row : ProductValue)
    (it : Table) (h : s.tx_state = some ts)
    (hit : alookup tid ts.insert_tables = some it) :
    ((∃ p ∈ it.indexes, p.2.violates_unique_constraint row = true) →
      ∃ e, (Inner.insert_row_internal tid row s).1 = Except.error e ∧
        e.isUniqueViolation = true)
    ∧ ((∀ p ∈ it.indexes, p.2.violates_unique_constraint row = false) →
       ∀ ct, alookup tid s.committed_state.tables = some ct →
       (∃ p ∈ ct.indexes, ∃ rids,
          p.2.get_rows_that_violate_unique_constraint row = some rids ∧
          ∃ rid ∈ rids, ts.tombstoned tid rid = false) →
       ∃ e, (Inner.insert_row_internal tid row s).1 = Except.error e ∧
         e.isUniqueViolation = true)
    ∧ ((∀ p ∈ it.indexes, p.2.violates_unique_constraint row = false) →
       (∀ ct, alookup tid s.committed_state.tables = some ct →
        ∀ p ∈ ct.indexes, ∀ rids,
          p.2.get_rows_that_violate_unique_constraint row = some rids →
          ∀ rid ∈ rids, ts.tombstoned tid rid = true) →
       ∀ e, (Inner.insert_row_internal tid row s).1 = Except.error e →
         e.isUniqueViolation = false) := by
  obtain ⟨cs, otx, seqs⟩ := s
  have h' : otx = some ts := h
  subst h'
  have hens : ts.ensure_insert_table cs tid = .ok ts := by
    unfold TxState.ensure_insert_table
    rw [hit]
  refine ⟨?_, ?_, ?_⟩
  · rintro ⟨p, hp, hviol⟩
    have hfind : (it.indexes.find? (fun p => p.2.violates_unique_constraint row)).isSome := by
      rw [List.find?_isSome]
      exact ⟨p, hp, hviol⟩
    rcases hfq : it.indexes.find? (fun p => p.2.violates_unique_constraint row) with _ | q
    · rw [hfq] at hfind; exact Bool.noConfusion hfind
    · refine ⟨mkUniqueErr it.schema q.2 row, ?_, rfl⟩
      unfold Inner.insert_row_internal
      dsimp only
      rw [hens]
      dsimp only
      rw [hit]
      dsimp only
      rw [hfq]
  · intro hclean ct hct ⟨p, hp, rids, hrids, rid, hrid, htomb⟩
    have hfind : it.indexes.find? (fun p => p.2.violates_unique_constraint row) = none := by
      rw [List.find?_eq_none]
      intro q hq
      rw [hclean q hq]
      simp
    have hcc : committedUniqueCheck cs ts tid row ≠ none := by
      unfold committedUniqueCheck
      rw [hct]
      rw [Ne, List.findSome?_eq_none_iff]
      intro hall
      have hfp := hall p hp
      rw [hrids] at hfp
      rw [List.findSome?_eq_none_iff] at hfp
      have hgr := hfp rid hrid
      unfold TxState.tombstoned at htomb
      rcases hdt : alookup tid ts.delete_tables with _ | dset
      · rw [hdt] at hgr
        dsimp only at hgr
        exact Option.noConfusion hgr
      · rw [hdt] at hgr
        rw [hdt] at htomb
        simp only [Option.elim] at htomb
        dsimp only at hgr
        rw [if_neg (of_decide_eq_false htomb)] at hgr
        exact Option.noConfusion hgr
    rcases hcq : committedUniqueCheck cs ts tid row with _ | e
    · exact absurd hcq hcc
    · refine ⟨e, ?_, committedUniqueCheck_isUnique cs ts tid row e hcq⟩
      unfold Inner.insert_row_internal
      dsimp only
      rw [hens]
      dsimp only
      rw [hit]
      dsimp only
      rw [hfind]
      dsimp only
      rw [hcq]
  · intro hclean htombed e herr
    have hfind : it.indexes.find? (fun p => p.2.violates_unique_constraint row) = none := by
      rw [List.find?_eq_none]
      intro q hq
      rw [hclean q hq]
      simp
    have hcc : committedUniqueCheck cs ts tid row = none := by
      unfold committedUniqueCheck
      rcases hct : alookup tid cs.tables with _ | ct
      · rfl
      · rw [List.findSome?_eq_none_iff]
        intro p hp
        rcases hrids : p.2.get_rows_that_violate_unique_constraint row with _ | rids
        · rfl
        · rw [List.findSome?_eq_none_iff]
          intro rid hrid
          have ht := htombed ct hct p hp rids hrids rid hrid
          unfold TxState.tombstoned at ht
          rcases hdt : alookup tid ts.delete_tables with _ | dset
          · rw [hdt] at ht; exact Bool.noConfusion ht
          · rw [hdt] at ht
            simp only [Option.elim] at ht
            dsimp only
            rw [if_pos (of_decide_eq_true ht)]
    unfold Inner.insert_row_internal at herr
    dsimp only at herr
    rw [hens] at herr
    dsimp only at herr
    rw [hit] at herr
    dsimp only at herr
    rw [hfind] at herr
    dsimp only at herr
    rw [hcc] at herr
    dsimp only at herr
    by_cases hlen : it.row_type.elements.length ≠ row.elements.length
    · rw [if_pos hlen] at herr
      rw [← Except.error.inj herr]
      rfl
    · rw [if_neg hlen] at herr
      exact Except.noConfusion herr

/-- Shadow insert-table of the C3 witness: empty rows, one empty unique
index shell on column 0 (as `insert_row_internal` clones it). -/
def c3Shadow : Table :=
  ⟨⟨[.tU32]⟩, ⟨4, "T", [⟨4, 0, "x", .tU32, false⟩], [⟨7, 4, 0, "T_x_idx", true⟩]⟩,
   [], [(0, BTreeIndex.new 7 4 0 "T_x_idx" true)]⟩

/-- Transaction state of the C3 witness: the shadow table and an empty
tombstone set for table 4. -/
def c3Ts : TxState := ⟨[(4, c3Shadow)], [(4, [])]⟩

/-- Datastore of the C3 witness: committed table 4 holds row `(1,)` under a
unique index on column 0. -/
def c3S : Inner := ⟨⟨[(4, c5UserTable)]⟩, some c3Ts, ⟨[]⟩⟩

/-- Witness for C3: re-inserting row `(1,)` collides with the committed,
non-tombstoned row under the unique index and aborts with
`UniqueConstraintViolation`. -/
theorem C3_unique_checks_witness :
    ∃ e, (Inner.insert_row_internal 4 (rowU32 1) c3S).1 = Except.error e ∧
      e.isUniqueViolation = true := by
  have H := C3_unique_checks c3S c3Ts 4 (rowU32 1) c3Shadow rfl rfl
  exact H.2.1 (by intro p hp; fin_cases hp; rfl) c5UserTable rfl
    ⟨(0, ⟨7, 4, 0, "T_x_idx", true, [(.vU32 1, (rowU32 1).to_data_key)]⟩), by decide,
     [(rowU32 1).to_data_key], rfl, (rowU32 1).to_data_key, by decide, rfl⟩

/-! C8: the two seek paths. -/

theorem alookup_some_mem {κ α : Type} [DecidableEq κ] {k : κ} {v : α} {l : List (κ × α)}
    (h : alookup k l = some v) : (k, v) ∈ l := by
  induction l with
  | nil => exact Option.noConfusion h
  | cons hd tl ih =>
      obtain ⟨hk, hv⟩ := hd
      rw [alookup_cons] at h
      by_cases he : hk = k
      · rw [if_pos he] at h
        subst he
        rw [← Option.some.inj h]
        exact List.mem_cons_self _ _
      · rw [if_neg he] at h
        exact List.mem_cons_of_mem _ (ih h)

theorem alookup_of_mem_nodup {κ α : Type} [DecidableEq κ] {k : κ} {v : α}
    {l : List (κ × α)} (hmem : (k, v) ∈ l) (hnd : (l.map Prod.fst).Nodup) :
    alookup k l = some v := by
  induction l with
  | nil => exact absurd hmem (List.not_mem_nil _)
  | cons hd tl ih =>
      obtain ⟨hk, hv⟩ := hd
      rw [List.map_cons, List.nodup_cons] at hnd
      rcases List.mem_cons.mp hmem with he | he
      · rw [alookup_cons, if_pos (congrArg Prod.fst he).symm]
        rw [(Prod.mk.injEq _ _ _ _).mp he.symm |>.2]
      · rw [alookup_cons]
        by_cases hke : hk = k
        · subst hke
          exact absurd (List.mem_map_of_mem Prod.fst he) hnd.1
        · rw [if_neg hke]
          exact ih he hnd.2

theorem mem_filter_snd_iff (l : List (RowId × ProductValue)) (P : RowId → Bool)
    (row : ProductValue) (hkc : keyConsistent l) (hnd : (l.map Prod.fst).Nodup) :
    row ∈ (l.filter (fun p => P p.1)).map Prod.snd ↔
      (alookup row.to_data_key l = some row ∧ P row.to_data_key = true) := by
  constructor
  · intro hmem
    rcases List.mem_map.mp hmem with ⟨p, hpf, hsnd⟩
    rcases List.mem_filter.mp hpf with ⟨hpl, hPp⟩
    have hk := hkc p hpl
    subst hsnd
    rw [← hk]
    exact ⟨alookup_of_mem_nodup (by rwa [← Prod.mk.eta (p := p)] at hpl) hnd, hPp⟩
  · rintro ⟨hlk, hP⟩
    have hmem := alookup_some_mem hlk
    exact List.mem_map_of_mem Prod.snd (List.mem_filter.mpr ⟨hmem, hP⟩)

theorem mem_filter_snd_eq (l : List (RowId × ProductValue))
    (q : RowId × ProductValue → Bool) (P : RowId → Bool) (hq : ∀ p, q p = P p.1)
    (row : ProductValue) (hkc : keyConsistent l) (hnd : (l.map Prod.fst).Nodup) :
    row ∈ (l.filter q).map Prod.snd ↔
      (alookup row.to_data_key l = some row ∧ P row.to_data_key = true) := by
  rw [show l.filter q = l.filter (fun p => P p.1) from
    List.filter_congr (fun p _ => hq p)]
  exact mem_filter_snd_iff l P row hkc hnd

theorem mem_snd_iff (l : List (RowId × ProductValue)) (row : ProductValue)
    (hkc : keyConsistent l) (hnd : (l.map Prod.fst).Nodup) :
    row ∈ l.map Prod.snd ↔ alookup row.to_data_key l = some row := by
  have h := mem_filter_snd_iff l (fun _ => true) row hkc hnd
  rw [List.filter_true] at h
  rw [h]
  simp

theorem exceptMapM_ok {α β : Type} (f : α → Except Err β) (ids : List α)
    (h : ∀ x ∈ ids, ∃ y, f x = .ok y) :
    ∃ l, ids.mapM f = Except.ok l ∧ ∀ y, y ∈ l ↔ ∃ x ∈ ids, f x = Except.ok y := by
  induction ids with
  | nil =>
      refine ⟨[], by rw [List.mapM_nil]; rfl, by simp⟩
  | cons x xs ih =>
      rcases h x (List.mem_cons_self _ _) with ⟨y, hy⟩
      rcases ih (fun z hz => h z (List.mem_cons_of_mem _ hz)) with ⟨l, hl, hmem⟩
      refine ⟨y :: l, ?_, ?_⟩
      · rw [List.mapM_cons, hy, hl]
        rfl
      · intro z
        rw [List.mem_cons]
        constructor
        · rintro (rfl | hz)
          · exact ⟨x, List.mem_cons_self _ _, hy⟩
          · rcases (hmem z).mp hz with ⟨w, hw, hfw⟩
            exact ⟨w, List.mem_cons_of_mem _ hw, hfw⟩
        · rintro ⟨w, hw, hfw⟩
          rcases List.mem_cons.mp hw with rfl | hw2
          · left
            rw [hy] at hfw
            exact (Except.ok.inj hfw).symm
          · right
            exact (hmem z).mpr ⟨w, hw2, hfw⟩

/-- C8 (amended): under the steady-state index invariants — the shadow
index on the sought column holds exactly the shadow rows keyed by their
indexed value, the committed index matches exactly the committed rows with
the sought value, rows are keyed by their content key without duplicates,
and shadow rows are never tombstoned — the index-backed seek path and the
scan-based seek path yield exactly the same set of rows, namely the live
rows whose value in the sought column equals the sought value. -/
theorem C8_seek_paths_agree (s : Inner) (ts : TxState) (tid cid : Nat)
    (v : AlgebraicValue) (it : Table) (sidx : BTreeIndex)
    (h : s.tx_state = some ts)
    (hit : alookup tid ts.insert_tables = some it)
    (hsidx : alookup cid it.indexes = some sidx)
    (hkcS : keyConsistent (shadowRowsOf ts tid))
    (hndS : ((shadowRowsOf ts tid).map Prod.fst).Nodup)
    (hkcC : keyConsistent (committedRowsOf s tid))
    (hndC : ((committedRowsOf s tid).map Prod.fst).Nodup)
    (hdisj : ∀ r : RowId, (alookup r (shadowRowsOf ts tid)).isSome →
      ts.tombstoned tid r = false)
    (hSidx : ∀ rid : RowId, rid ∈ sidx.seekIds v ↔
      ∃ row, alookup rid (shadowRowsOf ts tid) = some row ∧ row.field cid = v)
    (hCidx : ∀ rid : RowId, rid ∈ (s.committed_state.index_seek tid cid v).getD [] ↔
      ∃ row, alookup rid (committedRowsOf s tid) = some row ∧ row.field cid = v) :
    ∃ l₁ l₂,
      s.indexSeekPath ts tid cid v = Except.ok l₁ ∧
      s.scanSeekPath ts tid cid v = Except.ok l₂ ∧
      s.seekList tid cid v = Except.ok l₁ ∧
      (∀ row, row ∈ l₁ ↔ row ∈ l₂) ∧
      (∀ row, row ∈ l₁ ↔
        (s.contains_row tid row.to_data_key = true ∧ row.field cid = v)) := by
  have hshadowEq : shadowRowsOf ts tid = it.rows := by
    unfold shadowRowsOf
    rw [hit]
    rfl
  have hex : s.table_exists tid = true := by
    unfold Inner.table_exists
    rw [h]
    dsimp only
    rw [hit]
    rfl
  have hts : ts.index_seek tid cid v = some (sidx.seekIds v) := by
    unfold TxState.index_seek Table.index_seek
    rw [hit]
    simp only [Option.some_bind]
    rw [hsidx]
    rfl
  have hget : ∀ (rid : RowId) (row : ProductValue),
      ts.get_row tid rid = some row ↔ alookup rid (shadowRowsOf ts tid) = some row := by
    intro rid row
    unfold TxState.get_row
    rw [hshadowEq]
    constructor
    · intro hg
      by_cases htb : ts.tombstoned tid rid = true
      · rw [if_pos (by simpa using htb)] at hg
        exact Option.noConfusion hg
      · rw [if_neg (by simpa using htb)] at hg
        rw [hit] at hg
        simpa [Table.get_row] using hg
    · intro hl
      have htb := hdisj rid (by rw [hshadowEq, hl]; rfl)
      rw [if_neg (by simp [htb])]
      rw [hit]
      simpa [Table.get_row] using hl
  have hall1 : ∀ rid ∈ sidx.seekIds v, ∃ y,
      (fun rid => match ts.get_row tid rid with
        | some row => Except.ok row
        | none => Except.error Err.panicked) rid = Except.ok y := by
    intro rid hrid
    rcases (hSidx rid).mp hrid with ⟨row, hlk, hfv⟩
    refine ⟨row, ?_⟩
    have hg := (hget rid row).mpr hlk
    simp only [hg]
  obtain ⟨ls, hms, hmems⟩ := exceptMapM_ok _ (sidx.seekIds v) hall1
  have hall2 : ∀ rid ∈ (((s.committed_state.index_seek tid cid v).getD []).filter
      (fun rid => ¬ts.tombstoned tid rid)), ∃ y,
      (fun rid => match (alookup tid s.committed_state.tables).bind
          (fun t => t.get_row rid) with
        | some row => Except.ok row
        | none => Except.error Err.panicked) rid = Except.ok y := by
    intro rid hrid
    have hmem := (List.mem_filter.mp hrid).1
    rcases (hCidx rid).mp hmem with ⟨row, hlk, hfv⟩
    rcases hct : alookup tid s.committed_state.tables with _ | ct
    · rw [show committedRowsOf s tid = [] from by unfold committedRowsOf; rw [hct]; rfl]
        at hlk
      exact Option.noConfusion hlk
    · rw [show committedRowsOf s tid = ct.rows from by unfold committedRowsOf; rw [hct]; rfl]
        at hlk
      refine ⟨row, ?_⟩
      simp [hct, Table.get_row, hlk]
  obtain ⟨lc, hmc, hmemc⟩ := exceptMapM_ok _ _ hall2
  have hIdxPath : s.indexSeekPath ts tid cid v =
      Except.ok ((ls ++ lc).filter (fun row => row.field cid = v)) := by
    unfold Inner.indexSeekPath
    rw [hts]
    dsimp only
    rw [hms]
    dsimp only
    rw [hmc]
  have hScanPath : s.scanSeekPath ts tid cid v =
      Except.ok ((s.scanRows ts tid).filter (fun row => row.field cid = v)) := by
    unfold Inner.scanSeekPath
    rw [if_pos hex]
  have hSeek : s.seekList tid cid v = s.indexSeekPath ts tid cid v := by
    unfold Inner.seekList
    rw [h]
    dsimp only
    rw [hts]
    rfl
  have hinj : ∀ (a b : ProductValue), a.to_data_key = b.to_data_key → a = b := by
    intro a b hab
    exact congrArg RowId.key hab
  have hm1 : ∀ row, row ∈ ls ↔
      (alookup row.to_data_key (shadowRowsOf ts tid) = some row ∧ row.field cid = v) := by
    intro row
    rw [hmems row]
    constructor
    · rintro ⟨rid, hrid, hf⟩
      rcases hg2 : ts.get_row tid rid with _ | row2
      · rw [hg2] at hf
        exact Except.noConfusion hf
      · rw [hg2] at hf
        have hrow : row2 = row := Except.ok.inj hf
        subst hrow
        have hlk := (hget rid row2).mp hg2
        have hkey : rid = row2.to_data_key := hkcS _ (alookup_some_mem hlk)
        rw [← hkey]
        refine ⟨hlk, ?_⟩
        rcases (hSidx rid).mp hrid with ⟨row3, hlk3, hfv3⟩
        rw [hlk] at hlk3
        rw [Option.some.inj hlk3]
        exact hfv3
    · rintro ⟨hlk, hfv⟩
      refine ⟨row.to_data_key, (hSidx _).mpr ⟨row, hlk, hfv⟩, ?_⟩
      rw [(hget _ row).mpr hlk]
  have hm2 : ∀ row, row ∈ lc ↔
      (alookup row.to_data_key (committedRowsOf s tid) = some row ∧
       ts.tombstoned tid row.to_data_key = false ∧ row.field cid = v) := by
    intro row
    rw [hmemc row]
    constructor
    · rintro ⟨rid, hrid, hf⟩
      rcases hg2 : (alookup tid s.committed_state.tables).bind (fun t => t.get_row rid)
        with _ | row2
      · rw [hg2] at hf
        exact Except.noConfusion hf
      · rw [hg2] at hf
        have hrow : row2 = row := Except.ok.inj hf
        subst hrow
        have hlkC : alookup rid (committedRowsOf s tid) = some row2 := by
          rcases hct : alookup tid s.committed_state.tables with _ | ct
          · rw [hct] at hg2
            exact Option.noConfusion hg2
          · rw [hct] at hg2
            unfold committedRowsOf
            rw [hct]
            simpa [Table.get_row] using hg2
        have hkey : rid = row2.to_data_key := hkcC _ (alookup_some_mem hlkC)
        obtain ⟨hmemIds, hpred⟩ := List.mem_filter.mp hrid
        refine ⟨by rw [← hkey]; exact hlkC, ?_, ?_⟩
        · rw [← hkey]
          simpa using hpred
        · rcases (hCidx rid).mp hmemIds with ⟨row3, hlk3, hfv3⟩
          rw [hlkC] at hlk3
          rw [Option.some.inj hlk3]
          exact hfv3
    · rintro ⟨hlk, htomb, hfv⟩
      refine ⟨row.to_data_key, ?_, ?_⟩
      · refine List.mem_filter.mpr ⟨(hCidx _).mpr ⟨row, hlk, hfv⟩, ?_⟩
        simp [htomb]
      · rcases hct : alookup tid s.committed_state.tables with _ | ct
        · rw [show committedRowsOf s tid = [] from by unfold committedRowsOf; rw [hct]; rfl]
            at hlk
          exact Option.noConfusion hlk
        · have hre : committedRowsOf s tid = ct.rows := by
            unfold committedRowsOf
            rw [hct]
            rfl
          rw [hre] at hlk
          simp [hct, Table.get_row, hlk]
  have hSiff : ∀ row : ProductValue,
      (alookup row.to_data_key (shadowRowsOf ts tid) = some row ↔
        (alookup row.to_data_key (shadowRowsOf ts tid)).isSome = true) := by
    intro row
    constructor
    · intro hs
      rw [hs]
      rfl
    · intro hs
      rcases h2 : alookup row.to_data_key (shadowRowsOf ts tid) with _ | row2
      · rw [h2] at hs
        exact Bool.noConfusion hs
      · have hkey := hkcS _ (alookup_some_mem h2)
        rw [hinj row2 row hkey.symm]
  have hCiff : ∀ row : ProductValue,
      (alookup row.to_data_key (committedRowsOf s tid) = some row ↔
        (alookup row.to_data_key (committedRowsOf s tid)).isSome = true) := by
    intro row
    constructor
    · intro hs
      rw [hs]
      rfl
    · intro hs
      rcases h2 : alookup row.to_data_key (committedRowsOf s tid) with _ | row2
      · rw [h2] at hs
        exact Bool.noConfusion hs
      · have hkey := hkcC _ (alookup_some_mem h2)
        rw [hinj row2 row hkey.symm]
  have hcontains : ∀ row : ProductValue, s.contains_row tid row.to_data_key = true ↔
      (ts.tombstoned tid row.to_data_key = false ∧
        ((alookup row.to_data_key (shadowRowsOf ts tid)).isSome = true ∨
         (alookup row.to_data_key (committedRowsOf s tid)).isSome = true)) := by
    intro row
    rw [contains_row_eq s ts tid row.to_data_key h]
    rcases h1 : ts.tombstoned tid row.to_data_key with _ | _
    · rcases h2 : (alookup row.to_data_key (shadowRowsOf ts tid)).isSome with _ | _
      · simp [h2]
      · simp [h2]
    · simp
  have hl1 : ∀ row, row ∈ (ls ++ lc).filter (fun row => row.field cid = v) ↔
      (s.contains_row tid row.to_data_key = true ∧ row.field cid = v) := by
    intro row
    rw [List.mem_filter, List.mem_append, hm1 row, hm2 row, hcontains row,
      hSiff row, hCiff row]
    constructor
    · rintro ⟨⟨hs, hfv⟩ | ⟨hc, htomb, hfv⟩, hdec⟩
      · exact ⟨⟨hdisj _ (by rw [← hSiff row] at hs; rw [hs]; rfl), Or.inl hs⟩,
          by simpa using hdec⟩
      · exact ⟨⟨htomb, Or.inr hc⟩, by simpa using hdec⟩
    · rintro ⟨⟨htomb, hs | hc⟩, hfv⟩
      · exact ⟨Or.inl ⟨hs, hfv⟩, by simpa using hfv⟩
      · exact ⟨Or.inr ⟨hc, htomb, hfv⟩, by simpa using hfv⟩
  have hl2 : ∀ row, row ∈ (s.scanRows ts tid).filter (fun row => row.field cid = v) ↔
      (s.contains_row tid row.to_data_key = true ∧ row.field cid = v) := by
    intro row
    rw [List.mem_filter, scanRows_decomp, List.mem_append,
      mem_filter_snd_eq (committedRowsOf s tid)
        (fun p => decide (ts.get_row_op tid p.1 = RowOp.rAbs))
        (fun k => decide (ts.get_row_op tid k = RowOp.rAbs)) (fun p => rfl)
        row hkcC hndC,
      mem_snd_iff _ _ hkcS hndS, hcontains row,
      hSiff row, hCiff row]
    rw [show (decide (ts.get_row_op tid row.to_data_key = RowOp.rAbs) = true) ↔
        ts.get_row_op tid row.to_data_key = RowOp.rAbs from by simp]
    rw [get_row_op_eq]
    rcases h1 : ts.tombstoned tid row.to_data_key with _ | _
    · rcases h2 : (alookup row.to_data_key (shadowRowsOf ts tid)).isSome with _ | _
      · simp
      · simp
    · constructor
      · rintro ⟨h3 | hs, hdec⟩
        · simp at h3
        · have hfalse := hdisj row.to_data_key hs
          rw [hfalse] at h1
          exact Bool.noConfusion h1
      · rintro ⟨⟨hfalse, -⟩, -⟩
        exact Bool.noConfusion hfalse
  refine ⟨(ls ++ lc).filter (fun row => row.field cid = v),
    (s.scanRows ts tid).filter (fun row => row.field cid = v),
    hIdxPath, hScanPath, hSeek.trans hIdxPath, ?_, ?_⟩
  · intro row
    rw [hl1 row, hl2 row]
  · intro row
    exact hl1 row

/-- Shadow insert-table of the C8 counterexample: empty rows, but an index
on column 0 holding the committed row's id — exactly the state
`create_index_internal` produces when an index is created inside a
transaction over a non-empty committed table (it bulk-adds the committed
rows to the fresh shadow index, mod.rs `create_index_internal`). -/
def c8BadShadow : Table :=
  ⟨⟨[.tU32]⟩, ⟨4, "T", [⟨4, 0, "x", .tU32, false⟩], [⟨7, 4, 0, "T_x_idx", false⟩]⟩,
   [], [(0, ⟨7, 4, 0, "T_x_idx", false, [(.vU32 1, (rowU32 1).to_data_key)]⟩)]⟩

/-- Transaction state of the C8 counterexample: the shadow table with the
freshly built index, no tombstones. -/
def c8BadTs : TxState := ⟨[(4, c8BadShadow)], []⟩

/-- Datastore of the C8 counterexample: committed table 4 holds row `(1,)`
and has no committed index; the open transaction holds the shadow index. -/
def c8BadS : Inner := ⟨⟨[(4, simpleTable 4 "T" [rowU32 1])]⟩, some c8BadTs, ⟨[]⟩⟩

/-- C8, counterexample: with the shadow index holding a committed-only row
id — the state an in-transaction `create_index` over a non-empty committed
table produces — the index-backed seek path panics on
`tx_state.get_row(..).unwrap()` while the scan-based path yields the
committed row, so the two paths do not agree for every table, column and
value. -/
theorem C8_counterexample_index_path_panics :
    Inner.seekList c8BadS 4 0 (.vU32 1) = Except.error Err.panicked ∧
    Inner.indexSeekPath c8BadS c8BadTs 4 0 (.vU32 1) = Except.error Err.panicked ∧
    Inner.scanSeekPath c8BadS c8BadTs 4 0 (.vU32 1) = Except.ok [rowU32 1] :=
  ⟨rfl, rfl, rfl⟩

/-- Shadow index of the C8 witness: one entry for the shadow row `(2,)`. -/
def c8Sidx : BTreeIndex := ⟨7, 4, 0, "T_x_idx", false, [(.vU32 2, (rowU32 2).to_data_key)]⟩

/-- Shadow insert-table of the C8 witness: row `(2,)` under `c8Sidx`. -/
def c8Shadow : Table :=
  ⟨⟨[.tU32]⟩, ⟨4, "T", [⟨4, 0, "x", .tU32, false⟩], [⟨7, 4, 0, "T_x_idx", false⟩]⟩,
   [((rowU32 2).to_data_key, rowU32 2)], [(0, c8Sidx)]⟩

/-- Transaction state of the C8 witness: the shadow table, no tombstones. -/
def c8Ts : TxState := ⟨[(4, c8Shadow)], []⟩

/-- Committed table of the C8 witness: row `(1,)` under a matching
committed index on column 0. -/
def c8CommT : Table :=
  ⟨⟨[.tU32]⟩, simpleSchema 4 "T", [((rowU32 1).to_data_key, rowU32 1)],
   [(0, ⟨8, 4, 0, "T_x_idx", false, [(.vU32 1, (rowU32 1).to_data_key)]⟩)]⟩

/-- Datastore of the C8 witness. -/
def c8S : Inner := ⟨⟨[(4, c8CommT)]⟩, some c8Ts, ⟨[]⟩⟩

/-- Witness for C8 (amended): at a steady state whose indexes mirror their
tables, seeking value `(2,)` through the index path and the scan path
agrees, and yields exactly the live rows carrying that value. -/
theorem C8_seek_paths_agree_witness :
    ∃ l₁ l₂,
      Inner.indexSeekPath c8S c8Ts 4 0 (.vU32 2) = Except.ok l₁ ∧
      Inner.scanSeekPath c8S c8Ts 4 0 (.vU32 2) = Except.ok l₂ ∧
      Inner.seekList c8S 4 0 (.vU32 2) = Except.ok l₁ ∧
      (∀ row, row ∈ l₁ ↔ row ∈ l₂) ∧
      (∀ row, row ∈ l₁ ↔
        (Inner.contains_row c8S 4 row.to_data_key = true ∧
          row.field 0 = .vU32 2)) := by
  have hSidx : ∀ rid : RowId, rid ∈ c8Sidx.seekIds (.vU32 2) ↔
      ∃ row, alookup rid (shadowRowsOf c8Ts 4) = some row ∧ row.field 0 = .vU32 2 := by
    intro rid
    rw [show c8Sidx.seekIds (.vU32 2) = [(rowU32 2).to_data_key] from rfl]
    rw [show shadowRowsOf c8Ts 4 = [((rowU32 2).to_data_key, rowU32 2)] from rfl]
    constructor
    · intro hm
      rw [List.mem_singleton] at hm
      subst hm
      exact ⟨rowU32 2, rfl, rfl⟩
    · rintro ⟨row, hl, -⟩
      by_cases hk : (rowU32 2).to_data_key = rid
      · rw [List.mem_singleton]
        exact hk.symm
      · rw [alookup_cons, if_neg hk] at hl
        simp at hl
  have hCidx : ∀ rid : RowId,
      rid ∈ (c8S.committed_state.index_seek 4 0 (.vU32 2)).getD [] ↔
      ∃ row, alookup rid (committedRowsOf c8S 4) = some row ∧ row.field 0 = .vU32 2 := by
    intro rid
    rw [show (c8S.committed_state.index_seek 4 0 (.vU32 2)).getD [] = ([] : List RowId)
        from rfl]
    rw [show committedRowsOf c8S 4 = [((rowU32 1).to_data_key, rowU32 1)] from rfl]
    constructor
    · intro hm
      exact absurd hm (List.not_mem_nil rid)
    · rintro ⟨row, hl, hf⟩
      by_cases hk : (rowU32 1).to_data_key = rid
      · rw [alookup_cons, if_pos hk] at hl
        rw [← Option.some.inj hl] at hf
        exact absurd hf (by decide)
      · rw [alookup_cons, if_neg hk] at hl
        simp at hl
  exact C8_seek_paths_agree c8S c8Ts 4 0 (.vU32 2) c8Shadow c8Sidx rfl rfl rfl
    (by intro p hp; fin_cases hp; rfl) (by decide)
    (by intro p hp; fin_cases hp; rfl) (by decide)
    (fun r _ => rfl) hSidx hCidx

/-! C7: the auto-increment substitution of `insert_row`. -/

theorem substituteAutoinc_skip (gnsv : Nat → M Int) (cols : List ColumnSchema)
    (tn : String) (tid : Nat) (row : ProductValue) (s : Inner)
    (h : ∀ c ∈ cols,
      (c.is_autoinc && can_replace_with_sequence (row.field c.col_id)) = false) :
    Inner.substituteAutoinc gnsv cols tn tid row s = (.ok row, s) := by
  induction cols with
  | nil => rfl
  | cons col rest ih =>
      have hc := h col (List.mem_cons_self _ _)
      simp only [Inner.substituteAutoinc, hc, Bool.false_eq_true, if_false]
      exact ih (fun c hc2 => h c (List.mem_cons_of_mem _ hc2))

theorem substituteAutoinc_append_skip (gnsv : Nat → M Int) (pre rest : List ColumnSchema)
    (tn : String) (tid : Nat) (row : ProductValue) (s : Inner)
    (h : ∀ c ∈ pre,
      (c.is_autoinc && can_replace_with_sequence (row.field c.col_id)) = false) :
    Inner.substituteAutoinc gnsv (pre ++ rest) tn tid row s =
      Inner.substituteAutoinc gnsv rest tn tid row s := by
  induction pre with
  | nil => rfl
  | cons col pre2 ih =>
      have hc := h col (List.mem_cons_self _ _)
      show Inner.substituteAutoinc gnsv (col :: (pre2 ++ rest)) tn tid row s = _
      simp only [Inner.substituteAutoinc, hc, Bool.false_eq_true, if_false]
      exact ih (fun c hc2 => h c (List.mem_cons_of_mem _ hc2))

/-- C7: with the table's schema resolved, (a) when no auto-increment column
of the schema carries a numerically zero value, the row is inserted
unchanged and returned as-is; (b) for a schema with arbitrarily many
columns in which one auto-increment column carries a numerically zero value
(the columns before and after it being skipped: non-auto-increment or
non-zero), the matching `st_sequences` row is found, the next sequence
value — which is ≥ the sequence's `start` whenever the live counter is —
is drawn and coerced into the column, and the substituted row is both
inserted and returned. -/
theorem C7_autoinc_substitution (s : Inner) (table_id fuel : Nat)
    (schema : TableSchema) (row : ProductValue)
    (hschema : s.schema_for_table table_id = .ok schema) :
    ((∀ c ∈ schema.columns,
        (c.is_autoinc && can_replace_with_sequence (row.field c.col_id)) = false) →
      Inner.insert_row fuel table_id row s =
        ((Inner.insert_row_internal table_id row s).1.map (fun _ => row),
         (Inner.insert_row_internal table_id row s).2)) ∧
    (∀ (pre post : List ColumnSchema) (col : ColumnSchema) (seqRow : ProductValue)
        (sr : StSequenceRow) (seq seq2 : Sequence) (v : Int) (av : AlgebraicValue),
      schema.columns = pre ++ col :: post →
      (∀ c ∈ pre,
        (c.is_autoinc && can_replace_with_sequence (row.field c.col_id)) = false) →
      col.is_autoinc = true →
      can_replace_with_sequence (row.field col.col_id) = true →
      s.seekList ST_SEQUENCES_ID 2 (.vU32 table_id) = Except.ok [seqRow] →
      StSequenceRow.tryFrom seqRow = some sr →
      sr.col_id = col.col_id →
      alookup sr.sequence_id s.sequence_state.sequences = some seq →
      seq.gen_next_value = some (v, seq2) →
      seq.schema.start ≤ seq.value →
      sequence_value_to_algebraic_value schema.table_name col.col_name col.col_type v =
        Except.ok av →
      (∀ c ∈ post,
        (c.is_autoinc && can_replace_with_sequence
          ((row.setField col.col_id av).field c.col_id)) = false) →
      seq.schema.start ≤ v ∧
      Inner.insert_row (fuel + 1) table_id row s =
        ((Inner.insert_row_internal table_id (row.setField col.col_id av)
            (s.putSequence sr.sequence_id seq2)).1.map
              (fun _ => row.setField col.col_id av),
         (Inner.insert_row_internal table_id (row.setField col.col_id av)
            (s.putSequence sr.sequence_id seq2)).2)) := by
  constructor
  · intro h0
    show Inner.insert_rowAux (Inner.get_next_sequence_value fuel) table_id row s = _
    simp only [Inner.insert_rowAux, hschema]
    rw [substituteAutoinc_skip _ _ _ _ _ _ h0]
    rcases hir : Inner.insert_row_internal table_id row s with ⟨r, s2⟩
    simp only [hir]
    cases r with
    | error e => rfl
    | ok u => rfl
  · intro pre post col seqRow sr seq seq2 v av hcols hpre hai hz hseek htf hsc hlook
      hgen hge hcoerce hpost
    have hv : v = seq.value := by
      unfold Sequence.gen_next_value at hgen
      by_cases hle : seq.value ≤ seq.schema.allocated
      · rw [if_pos hle] at hgen
        exact (congrArg Prod.fst (Option.some.inj hgen)).symm
      · rw [if_neg hle] at hgen
        exact absurd hgen (by simp)
    refine ⟨hv ▸ hge, ?_⟩
    have hgnsv : Inner.get_next_sequence_value (fuel + 1) sr.sequence_id s =
        (.ok v, s.putSequence sr.sequence_id seq2) := by
      simp only [Inner.get_next_sequence_value, hlook, hgen]
    have hsub : Inner.substituteAutoinc (Inner.get_next_sequence_value (fuel + 1))
        schema.columns schema.table_name table_id row s =
        (.ok (row.setField col.col_id av), s.putSequence sr.sequence_id seq2) := by
      rw [hcols, substituteAutoinc_append_skip _ _ _ _ _ _ _ hpre]
      simp only [Inner.substituteAutoinc, hai, hz, Bool.and_self, if_true, hseek]
      simp only [Inner.findMatchingSequence, htf, if_neg (not_not_intro hsc), hgnsv,
        hcoerce]
      exact substituteAutoinc_skip _ _ _ _ _ _ hpost
    show Inner.insert_rowAux (Inner.get_next_sequence_value (fuel + 1)) table_id row s = _
    simp only [Inner.insert_rowAux, hschema, hsub]
    rcases hir : Inner.insert_row_internal table_id (row.setField col.col_id av)
        (s.putSequence sr.sequence_id seq2) with ⟨r, s2⟩
    simp only [hir]
    cases r with
    | error e => rfl
    | ok u => rfl

/-- First column of the C7 witness table: plain `U32`, not auto-increment. -/
def c7Col0 : ColumnSchema := ⟨4, 0, "x", .tU32, false⟩

/-- Second column of the C7 witness table: the auto-increment `U32` column. -/
def c7Col : ColumnSchema := ⟨4, 1, "id", .tU32, true⟩

/-- Third column of the C7 witness table: a string, not auto-increment. -/
def c7Col2 : ColumnSchema := ⟨4, 2, "name", .tString, false⟩

/-- The C7 witness table's three-column schema, the auto-increment column
in the middle. -/
def c7Schema : TableSchema := ⟨4, "T", [c7Col0, c7Col, c7Col2], []⟩

/-- Committed user table of the C7 witness (empty, no indexes). -/
def c7UserTable : Table := ⟨⟨[.tU32, .tU32, .tString]⟩, c7Schema, [], []⟩

/-- The `st_sequences` row of the C7 witness: sequence 5 on table 4 column
1, increment 1, start 1, allocated up to 10. -/
def c7Sr : StSequenceRow := ⟨5, "seq", 4, 1, 1, 1, 1, 100, 10⟩

/-- Committed `st_sequences` table of the C7 witness, holding the one row. -/
def c7SeqTable : Table :=
  ⟨⟨[.tU32, .tString, .tU32, .tU32, .tI128, .tI128, .tI128, .tI128, .tI128]⟩,
   ⟨2, "st_sequences", [], []⟩,
   [((StSequenceRow.toProductValue c7Sr).to_data_key, StSequenceRow.toProductValue c7Sr)],
   []⟩

/-- Live counter of the C7 witness sequence: value 3 within the allocation. -/
def c7Seq : Sequence := ⟨⟨5, "seq", 4, 1, 1, 1, 1, 100, 10⟩, 3⟩

/-- The counter after drawing one value. -/
def c7Seq2 : Sequence := ⟨⟨5, "seq", 4, 1, 1, 1, 1, 100, 10⟩, 4⟩

/-- Datastore of the C7 witness: committed tables 4 and `st_sequences`, an
open empty transaction, and the live counter for sequence 5. -/
def c7S : Inner := ⟨⟨[(4, c7UserTable), (2, c7SeqTable)]⟩, some ⟨[], []⟩, ⟨[(5, c7Seq)]⟩⟩

/-- The incoming row of the C7 witness: `(7, 0, "a")`, zero in the
auto-increment middle column. -/
def c7Row : ProductValue := ⟨[.vU32 7, .vU32 0, .vString "a"]⟩

/-- Witness for C7: inserting `(7, 0, "a")` into the three-column table
draws sequence value 3 (≥ start 1) for the middle auto-increment column,
leaves the surrounding columns untouched, and inserts and returns the
substituted row `(7, 3, "a")`. -/
theorem C7_autoinc_substitution_witness :
    c7Seq.schema.start ≤ 3 ∧
    Inner.insert_row 1 4 c7Row c7S =
      ((Inner.insert_row_internal 4 (c7Row.setField 1 (.vU32 3))
          (c7S.putSequence 5 c7Seq2)).1.map (fun _ => c7Row.setField 1 (.vU32 3)),
       (Inner.insert_row_internal 4 (c7Row.setField 1 (.vU32 3))
          (c7S.putSequence 5 c7Seq2)).2) :=
  (C7_autoinc_substitution c7S 4 0 c7Schema c7Row rfl).2
    [c7Col0] [c7Col2] c7Col (StSequenceRow.toProductValue c7Sr) c7Sr c7Seq c7Seq2
    3 (.vU32 3)
    rfl (by decide) rfl rfl rfl rfl rfl rfl rfl (by decide) rfl (by decide)

/-! C9: the sequence allocator and its refill protocol. -/

theorem alookup_ainsert_self {κ α : Type} [DecidableEq κ] (k : κ) (v : α)
    (l : List (κ × α)) : alookup k (ainsert k v l) = some v := by
  induction l with
  | nil => simp [ainsert, alookup]
  | cons p rest ih =>
      rcases p with ⟨k2, v2⟩
      by_cases h : k2 = k
      · simp [ainsert, h, alookup]
      · simp [ainsert, h, alookup, ih]

theorem alookup_ainsert_ne {κ α : Type} [DecidableEq κ] (k k2 : κ) (v : α)
    (l : List (κ × α)) (h : k ≠ k2) : alookup k2 (ainsert k v l) = alookup k2 l := by
  induction l with
  | nil => simp [ainsert, alookup, h]
  | cons p rest ih =>
      rcases p with ⟨k3, v3⟩
      by_cases h3 : k3 = k
      · subst h3
        simp [ainsert, alookup, h]
      · simp [ainsert, h3, alookup, ih]

theorem delete_row_internal_seqstate (s : Inner) (tid : Nat) (rid : RowId) :
    (Inner.delete_row_internal s tid rid).2.sequence_state = s.sequence_state := by
  unfold Inner.delete_row_internal
  rcases hb : s.contains_row tid rid with _ | _
  · simp only [hb, Bool.false_eq_true, if_false]
  · simp only [hb, if_true]
    rcases ho : s.tx_state with _ | ts
    · simp only [ho]
    · simp only [ho]

/-- C9: for the allocator at positive recursion bound, (1) a sequence id
without a live counter fails `NotFound`; (2) a counter with values left
hands the next one out and steps the counter; (3) an exhausted counter
enters the refill protocol: the in-memory counter's allocation is bumped to
`nth_value 1024` ­— a batch of 1024 values — the old `st_sequences` row is
deleted in the current transaction and the rewritten row (its `allocated`
field set to the new cap) is re-inserted through the ordinary insert
pipeline; after a successful insert the allocator retries once, handing out
a value when the refreshed counter has one and failing `UnableToAllocate`
otherwise. -/
theorem C9_sequence_allocation (s : Inner) (seq_id fuel : Nat) :
    ((alookup seq_id s.sequence_state.sequences = none →
      Inner.get_next_sequence_value (fuel + 1) seq_id s =
        (.error (.seqNotFound seq_id), s)) ∧
    (∀ (seq seq2 : Sequence) (v : Int),
      alookup seq_id s.sequence_state.sequences = some seq →
      seq.gen_next_value = some (v, seq2) →
      Inner.get_next_sequence_value (fuel + 1) seq_id s =
        (.ok v, s.putSequence seq_id seq2)) ∧
    (∀ (seq : Sequence) (rows : List ProductValue) (oldRow : ProductValue)
        (sr0 : StSequenceRow),
      alookup seq_id s.sequence_state.sequences = some seq →
      seq.gen_next_value = none →
      s.seekList ST_SEQUENCES_ID 0 (.vU32 seq_id) = Except.ok rows →
      rows.getLast? = some oldRow →
      StSequenceRow.tryFrom oldRow = some sr0 →
      (alookup seq_id
          ((Inner.delete_row_internal
              (s.putSequence seq_id (seq.set_allocation (seq.nth_value 1024)))
              ST_SEQUENCES_ID oldRow.to_data_key).2).sequence_state.sequences =
        some (seq.set_allocation (seq.nth_value 1024))) ∧
      (∀ (r : ProductValue) (s2 : Inner) (seqf : Sequence),
        Inner.insert_rowAux (Inner.get_next_sequence_value fuel) ST_SEQUENCES_ID
          (StSequenceRow.toProductValue { sr0 with allocated := seq.nth_value 1024 })
          ((Inner.delete_row_internal
              (s.putSequence seq_id (seq.set_allocation (seq.nth_value 1024)))
              ST_SEQUENCES_ID oldRow.to_data_key).2) =
            (.ok r, s2) →
        alookup seq_id s2.sequence_state.sequences = some seqf →
        ((∀ q, seqf.gen_next_value = some q →
          Inner.get_next_sequence_value (fuel + 1) seq_id s =
            (.ok q.1, s2.putSequence seq_id q.2)) ∧
        (seqf.gen_next_value = none →
          Inner.get_next_sequence_value (fuel + 1) seq_id s =
            (.error (.seqUnableToAllocate seq_id), s2)))))) := by
  refine ⟨?_, ?_, ?_⟩
  · intro h
    simp only [Inner.get_next_sequence_value, h]
  · intro seq seq2 v h1 h2
    simp only [Inner.get_next_sequence_value, h1, h2]
  · intro seq rows oldRow sr0 h1 h2 h3 h4 h5
    constructor
    · rw [delete_row_internal_seqstate]
      exact alookup_ainsert_self _ _ _
    · intro r s2 seqf hins hlook2
      have hmain : Inner.get_next_sequence_value (fuel + 1) seq_id s =
          Inner.seqRetry (Inner.get_next_sequence_value fuel) seq_id
            (StSequenceRow.toProductValue { sr0 with allocated := seq.nth_value 1024 })
            ((Inner.delete_row_internal
                (s.putSequence seq_id (seq.set_allocation (seq.nth_value 1024)))
                ST_SEQUENCES_ID oldRow.to_data_key).2) := by
        simp only [Inner.get_next_sequence_value, h1, h2, h3, h4, h5]
      constructor
      · intro q hq
        rw [hmain]
        simp only [Inner.seqRetry, hins, hlook2, hq]
      · intro hq
        rw [hmain]
        simp only [Inner.seqRetry, hins, hlook2, hq]

/-- The `st_sequences` row of the C9 witness: sequence 5 on table 4 column
0, increment 1, start 1, exhausted at allocation 3. -/
def c9Sr : StSequenceRow := ⟨5, "seq", 4, 0, 1, 1, 1, 100, 3⟩

/-- Live counter of the C9 witness: value 4 past the allocation 3. -/
def c9Seq : Sequence := ⟨⟨5, "seq", 4, 0, 1, 1, 1, 100, 3⟩, 4⟩

/-- Committed `st_sequences` table of the C9 witness. -/
def c9SeqTable : Table :=
  ⟨⟨[.tU32, .tString, .tU32, .tU32, .tI128, .tI128, .tI128, .tI128, .tI128]⟩,
   ⟨2, "st_sequences", [], []⟩,
   [((StSequenceRow.toProductValue c9Sr).to_data_key, StSequenceRow.toProductValue c9Sr)],
   []⟩

/-- Datastore of the C9 witness: the committed `st_sequences` table, an
open empty transaction, and the exhausted live counter. -/
def c9S : Inner := ⟨⟨[(2, c9SeqTable)]⟩, some ⟨[], []⟩, ⟨[(5, c9Seq)]⟩⟩

/-- The rewritten `st_sequences` row: `allocated` bumped to
`nth_value 1024 = 1028`. -/
def c9NewRow : ProductValue := StSequenceRow.toProductValue ⟨5, "seq", 4, 0, 1, 1, 1, 100, 1028⟩

/-- The bumped state: counter cap raised, old row tombstoned. -/
def c9Sp : Inner :=
  ((c9S.putSequence 5 (c9Seq.set_allocation 1028)).delete_row_internal ST_SEQUENCES_ID
    (StSequenceRow.toProductValue c9Sr).to_data_key).2

/-- The state after re-inserting the rewritten row. -/
def c9S2 : Inner :=
  (Inner.insert_rowAux (Inner.get_next_sequence_value 0) ST_SEQUENCES_ID c9NewRow c9Sp).2

/-- The refreshed counter after the refill. -/
def c9SeqF : Sequence := ⟨⟨5, "seq", 4, 0, 1, 1, 1, 100, 1028⟩, 4⟩

/-- Witness for C9: at the exhausted counter, the refill succeeds — the
allocator returns value 4 and the state carries the re-inserted
`st_sequences` row with the bumped allocation. -/
theorem C9_sequence_allocation_witness :
    Inner.get_next_sequence_value 1 5 c9S =
      (Except.ok 4, c9S2.putSequence 5 ⟨⟨5, "seq", 4, 0, 1, 1, 1, 100, 1028⟩, 5⟩) := by
  have H := (C9_sequence_allocation c9S 5 0).2.2 c9Seq
    [StSequenceRow.toProductValue c9Sr] (StSequenceRow.toProductValue c9Sr) c9Sr
    rfl rfl rfl rfl rfl
  exact (H.2 c9NewRow c9S2 c9SeqF rfl rfl).1
    (4, ⟨⟨5, "seq", 4, 0, 1, 1, 1, 100, 1028⟩, 5⟩) rfl

/-! C4: failing operations and partial writes. -/

/-- The `st_sequences` row of the C4 counterexample: a descending sequence
(increment `-1`) whose counter is already past its allocation. -/
def c4Sr : StSequenceRow := ⟨5, "seq", 4, 0, -1, 1, -100, 1, 0⟩

/-- Live counter of the C4 counterexample: value 1, allocation 0 — and
descending, so refilling moves the cap further away. -/
def c4Seq : Sequence := ⟨⟨5, "seq", 4, 0, -1, 1, -100, 1, 0⟩, 1⟩

/-- Committed `st_sequences` table of the C4 counterexample. -/
def c4SeqTable : Table :=
  ⟨⟨[.tU32, .tString, .tU32, .tU32, .tI128, .tI128, .tI128, .tI128, .tI128]⟩,
   ⟨2, "st_sequences", [], []⟩,
   [((StSequenceRow.toProductValue c4Sr).to_data_key, StSequenceRow.toProductValue c4Sr)],
   []⟩

/-- Datastore of the C4 counterexample. -/
def c4S : Inner := ⟨⟨[(2, c4SeqTable)]⟩, some ⟨[], []⟩, ⟨[(5, c4Seq)]⟩⟩

/-- The rewritten row the failed refill leaves behind
(`allocated = nth_value 1024 = -1023`). -/
def c4SrNew : StSequenceRow := ⟨5, "seq", 4, 0, -1, 1, -100, 1, -1023⟩

/-- C4, counterexample: `get_next_sequence_value` on the exhausted
descending sequence fails `UnableToAllocate`, yet the failing call has
rewritten the `st_sequences` row inside the open transaction — the rows
observable by scan changed across the failing call, a partial write that
escaped. -/
theorem C4_counterexample_failed_refill_mutates_scan :
    (Inner.get_next_sequence_value 1 5 c4S).1 =
      Except.error (Err.seqUnableToAllocate 5) ∧
    Inner.scanList c4S ST_SEQUENCES_ID =
      Except.ok [StSequenceRow.toProductValue c4Sr] ∧
    Inner.scanList (Inner.get_next_sequence_value 1 5 c4S).2 ST_SEQUENCES_ID =
      Except.ok [StSequenceRow.toProductValue c4SrNew] ∧
    ¬StSequenceRow.toProductValue c4SrNew = StSequenceRow.toProductValue c4Sr :=
  ⟨rfl, rfl, rfl, by decide⟩

theorem fresh_table_preserves_reads (cs : CommittedState) (ts0 : TxState)
    (seqs : SequencesState) (table_id : Nat) (F ct : Table)
    (hf : F.rows = [])
    (h1 : alookup table_id ts0.insert_tables = none)
    (h2 : alookup table_id cs.tables = some ct) :
    (∀ t, Inner.scanList
        ⟨cs, some { ts0 with insert_tables := ainsert table_id F ts0.insert_tables },
         seqs⟩ t =
      Inner.scanList ⟨cs, some ts0, seqs⟩ t) ∧
    (∀ t r, Inner.contains_row
        ⟨cs, some { ts0 with insert_tables := ainsert table_id F ts0.insert_tables },
         seqs⟩ t r =
      Inner.contains_row ⟨cs, some ts0, seqs⟩ t r) ∧
    (∀ t r, Inner.get_rowE
        ⟨cs, some { ts0 with insert_tables := ainsert table_id F ts0.insert_tables },
         seqs⟩ t r =
      Inner.get_rowE ⟨cs, some ts0, seqs⟩ t r) := by
  have htb : ∀ t r, TxState.tombstoned
      { ts0 with insert_tables := ainsert table_id F ts0.insert_tables } t r =
      ts0.tombstoned t r := fun _ _ => rfl
  have hgop : ∀ t r, TxState.get_row_op
      { ts0 with insert_tables := ainsert table_id F ts0.insert_tables } t r =
      ts0.get_row_op t r := by
    intro t r
    unfold TxState.get_row_op
    rw [htb]
    rcases hb : ts0.tombstoned t r with _ | _
    · simp only [Bool.false_eq_true, if_false]
      by_cases ht : table_id = t
      · subst ht
        rw [alookup_ainsert_self, h1]
        simp [Table.get_row, hf]
      · rw [alookup_ainsert_ne _ _ _ _ ht]
    · simp
  have hget : ∀ t r, TxState.get_row
      { ts0 with insert_tables := ainsert table_id F ts0.insert_tables } t r =
      ts0.get_row t r := by
    intro t r
    unfold TxState.get_row
    rw [htb]
    rcases hb : ts0.tombstoned t r with _ | _
    · simp only [Bool.false_eq_true, if_false]
      by_cases ht : table_id = t
      · subst ht
        rw [alookup_ainsert_self, h1]
        simp [Table.get_row, hf]
      · rw [alookup_ainsert_ne _ _ _ _ ht]
    · simp
  have hex : ∀ t, Inner.table_exists
      ⟨cs, some { ts0 with insert_tables := ainsert table_id F ts0.insert_tables },
       seqs⟩ t =
      Inner.table_exists ⟨cs, some ts0, seqs⟩ t := by
    intro t
    unfold Inner.table_exists
    by_cases ht : table_id = t
    · subst ht
      simp [alookup_ainsert_self, h1, h2]
    · simp [alookup_ainsert_ne _ _ _ _ ht]
  have hscan : ∀ t, Inner.scanRows
      ⟨cs, some { ts0 with insert_tables := ainsert table_id F ts0.insert_tables },
       seqs⟩ { ts0 with insert_tables := ainsert table_id F ts0.insert_tables } t =
      Inner.scanRows ⟨cs, some ts0, seqs⟩ ts0 t := by
    intro t
    unfold Inner.scanRows
    rcases hc : alookup t cs.tables with _ | ct2
    · simp only [hc]
      by_cases ht : table_id = t
      · subst ht
        rw [h2] at hc
        exact absurd hc (by simp)
      · rw [alookup_ainsert_ne _ _ _ _ ht]
    · simp only [hc]
      have hfilter : ct2.rows.filter
          (fun p => decide (TxState.get_row_op
            { ts0 with insert_tables := ainsert table_id F ts0.insert_tables }
            t p.1 = RowOp.rAbs)) =
          ct2.rows.filter (fun p => decide (ts0.get_row_op t p.1 = RowOp.rAbs)) :=
        List.filter_congr (fun p _ => by rw [hgop])
      rw [hfilter]
      by_cases ht : table_id = t
      · subst ht
        rw [alookup_ainsert_self, h1]
        simp [Table.scan_rows, hf]
      · rw [alookup_ainsert_ne _ _ _ _ ht]
  refine ⟨?_, ?_, ?_⟩
  · intro t
    have e3 := hex t
    have e4 := hscan t
    rcases he : Inner.table_exists ⟨cs, some ts0, seqs⟩ t with _ | _ <;> rw [he] at e3 <;>
      simp [Inner.scanList, e3, e4, he]
  · intro t r
    have e1 := hgop t r
    rcases hop : ts0.get_row_op t r with _ | _ | _ <;> rw [hop] at e1 <;>
      simp [Inner.contains_row, e1, hop]
  · intro t r
    have e1 := hgop t r
    have e2 := hget t r
    have e3 := hex t
    rcases hop : ts0.get_row_op t r with _ | _ | _ <;> rw [hop] at e1 <;>
      rcases he : Inner.table_exists ⟨cs, some ts0, seqs⟩ t with _ | _ <;>
        rw [he] at e3 <;>
          simp [Inner.get_rowE, e1, e2, e3, hop, he]

theorem ensure_preserves_reads (cs : CommittedState) (ts0 ts : TxState)
    (seqs : SequencesState) (table_id : Nat)
    (hens : TxState.ensure_insert_table ts0 cs table_id = .ok ts) :
    (∀ t, Inner.scanList ⟨cs, some ts, seqs⟩ t = Inner.scanList ⟨cs, some ts0, seqs⟩ t) ∧
    (∀ t r, Inner.contains_row ⟨cs, some ts, seqs⟩ t r =
      Inner.contains_row ⟨cs, some ts0, seqs⟩ t r) ∧
    (∀ t r, Inner.get_rowE ⟨cs, some ts, seqs⟩ t r =
      Inner.get_rowE ⟨cs, some ts0, seqs⟩ t r) := by
  unfold TxState.ensure_insert_table at hens
  rcases h1 : alookup table_id ts0.insert_tables with _ | t0
  · simp only [h1] at hens
    rcases h2 : alookup table_id cs.tables with _ | ct
    · simp only [h2] at hens
      exact absurd hens (by simp)
    · simp only [h2] at hens
      obtain rfl := Except.ok.inj hens
      exact fresh_table_preserves_reads cs ts0 seqs table_id _ ct rfl h1 h2
  · simp only [h1] at hens
    obtain rfl := Except.ok.inj hens
    exact ⟨fun t => rfl, fun t r => rfl, fun t r => rfl⟩

/-- C4 (amended): when `insert_row_internal` returns an error, no partial
write escapes into the open transaction: the committed state and the rows
observable by scan, `contains_row` and `get_row` are unchanged for every
table (the only state change an error path can make is materializing an
empty shadow insert-table, which no read observes).  The claim's
unrestricted form is refuted by the failed sequence refill, which rewrites
`st_sequences` before erroring. -/
theorem C4_insert_error_preserves_reads (s s1 : Inner) (table_id : Nat)
    (row : ProductValue) (e : Err)
    (h : Inner.insert_row_internal table_id row s = (.error e, s1)) :
    s1.committed_state = s.committed_state ∧
    (∀ t, Inner.scanList s1 t = Inner.scanList s t) ∧
    (∀ t r, Inner.contains_row s1 t r = Inner.contains_row s t r) ∧
    (∀ t r, Inner.get_rowE s1 t r = Inner.get_rowE s t r) := by
  obtain ⟨cs, otx, seqs⟩ := s
  cases otx with
  | none =>
      simp only [Inner.insert_row_internal] at h
      obtain ⟨-, rfl⟩ := Prod.mk.injEq _ _ _ _ ▸ h
      exact ⟨rfl, fun t => rfl, fun t r => rfl, fun t r => rfl⟩
  | some ts0 =>
      simp only [Inner.insert_row_internal] at h
      rcases hens : TxState.ensure_insert_table ts0 cs table_id with e2 | ts <;>
        simp only [hens] at h
      · obtain ⟨-, rfl⟩ := Prod.mk.injEq _ _ _ _ ▸ h
        exact ⟨rfl, fun t => rfl, fun t r => rfl, fun t r => rfl⟩
      · have hs1 : s1 = ⟨cs, some ts, seqs⟩ := by
          rcases hlk : alookup table_id ts.insert_tables with _ | it <;>
            simp only [hlk] at h
          · exact (Prod.mk.injEq _ _ _ _ ▸ h).2.symm
          · rcases hfind : it.indexes.find?
                (fun p => p.2.violates_unique_constraint row) with _ | p <;>
              simp only [hfind] at h
            · rcases hcuc : committedUniqueCheck cs ts table_id row with _ | e3 <;>
                simp only [hcuc] at h
              · by_cases harr : it.row_type.elements.length ≠ row.elements.length
                · rw [if_pos harr] at h
                  exact (Prod.mk.injEq _ _ _ _ ▸ h).2.symm
                · rw [if_neg harr] at h
                  exact absurd (Prod.mk.injEq _ _ _ _ ▸ h).1 (by simp)
              · exact (Prod.mk.injEq _ _ _ _ ▸ h).2.symm
            · exact (Prod.mk.injEq _ _ _ _ ▸ h).2.symm
        subst hs1
        have H := ensure_preserves_reads cs ts0 ts seqs table_id hens
        exact ⟨rfl, H.1, H.2.1, H.2.2⟩

/-- Datastore of the C4 witness: committed table 4 with row `(1,)`, no
shadow table yet. -/
def c4WS : Inner := ⟨⟨[(4, simpleTable 4 "T" [rowU32 1])]⟩, some ⟨[], []⟩, ⟨[]⟩⟩

/-- Witness for C4 (amended): inserting a wrong-arity row fails with
`RowInvalidType` — after materializing the shadow table — and scan and
`contains_row` observations are unchanged. -/
theorem C4_insert_error_preserves_reads_witness :
    (Inner.insert_row_internal 4 ⟨[.vU32 1, .vU32 2]⟩ c4WS).1 =
      Except.error (Err.rowInvalidType 4 ⟨[.vU32 1, .vU32 2]⟩) ∧
    Inner.scanList (Inner.insert_row_internal 4 ⟨[.vU32 1, .vU32 2]⟩ c4WS).2 4 =
      Inner.scanList c4WS 4 ∧
    Inner.contains_row (Inner.insert_row_internal 4 ⟨[.vU32 1, .vU32 2]⟩ c4WS).2 4
      (rowU32 1).to_data_key =
      Inner.contains_row c4WS 4 (rowU32 1).to_data_key := by
  have H := C4_insert_error_preserves_reads c4WS
    (Inner.insert_row_internal 4 ⟨[.vU32 1, .vU32 2]⟩ c4WS).2 4 ⟨[.vU32 1, .vU32 2]⟩
    (Err.rowInvalidType 4 ⟨[.vU32 1, .vU32 2]⟩) rfl
  exact ⟨rfl, H.2.1 4, H.2.2.1 4 (rowU32 1).to_data_key⟩

end STDB
